import Mathlib

set_option maxRecDepth 4000

/-!
Shallow embedding of the in-memory background job queue of the Onboarder
repository (the job-queue half of `src/services/githubService.js` in the
staged sources: `addJob`, `processJobs`, `processJob`, `executeCloneJob`,
`getJobStatus`, `clearCompletedJobs`, and the module-level configuration
`MAX_CONCURRENT_JOBS` / `RETRY_ATTEMPTS`).

JavaScript's single-threaded event loop is modelled as a labelled small-step
system: each label is either an external stimulus (a `submit` call, a timer
tick, the periodic reaper firing) or the resumption of one suspended `await`
inside an in-flight `processJob` invocation.  Synchronous segments of the
source run atomically inside one step, exactly as the event loop runs them:
in particular `processJob`'s prefix up to its first `await` runs inside the
dispatch step of the scheduler loop, and a job whose processing contains no
`await` at all (an unknown job type with no `projectId` in its payload, whose
`switch` arm throws synchronously) runs to the end of its catch block inside
that same dispatch step.
-/

/-- Job lifecycle states, from the `JobStatus` enum of the source
(`pending`, `running`, `completed`, `failed`). -/
inductive JobStatus where
  | pending
  | running
  | completed
  | failed
  deriving DecidableEq, Repr

/-- `JobType.CLONE` of the source. -/
def JobTypeCLONE : String := "clone"

/-- `JobType.ANALYZE` of the source. -/
def JobTypeANALYZE : String := "analyze"

/-- `JobType.BUILD` of the source. -/
def JobTypeBUILD : String := "build"

/-- The payload (`data`) of a job.  The source treats it as an opaque object;
the engine itself reads only `projectId` (to decide whether the `BuildLog`
calls run), and the clone work function reads `projectId`, `repoUrl` and
`branch` and chains an analyze job carrying `projectId` and `projectPath`.
Absent object fields are `none`. -/
structure JobData where
  projectId : Option String := none
  repoUrl : Option String := none
  branch : Option String := none
  projectPath : Option String := none
  deriving DecidableEq, Repr

/-- The job record created by `addJob` (source lines 178-189).  Timestamps
are modelled as natural milliseconds; fields that start out `null` are
`Option`s.  `result` is the work function's opaque output, modelled as the
string the environment hands the successful work step. -/
structure Job where
  id : Nat
  type : String
  data : JobData
  status : JobStatus
  createdAt : Nat
  startedAt : Option Nat
  completedAt : Option Nat
  error : Option String
  retryCount : Nat
  result : Option String
  deriving DecidableEq, Repr

/-- Process-wide configuration, read once at startup:
`MAX_CONCURRENT_JOBS` (default 3) and `RETRY_ATTEMPTS` (default 2). -/
structure Config where
  maxConcurrent : Nat
  retryAttempts : Nat
  deriving DecidableEq, Repr

/-- The defaults of the source: `MAX_CONCURRENT_JOBS = 3`,
`RETRY_ATTEMPTS = 2`. -/
def defaultConfig : Config := { maxConcurrent := 3, retryAttempts := 2 }

/-- The reaper's retention window default, `olderThanMs = 3600000` (1 hour). -/
def DEFAULT_RETENTION_MS : Nat := 3600000

/-- The `setInterval` period of the periodic cleanup (10 minutes). -/
def CLEANUP_INTERVAL_MS : Nat := 600000

/-- Where an in-flight `processJob` invocation is suspended (its next
pending `await`).  `phStartLog` and `phDoneLog` exist only for jobs whose
payload carries a `projectId` (the source guards every `BuildLog` call with
`if (job.data.projectId)`); `phCompleting` holds the work function's result,
already produced but not yet assigned (the `await` of the work function has
resolved; the assignment to the job record runs when the continuation is
scheduled); `phCatchTail` is any `await` inside the catch block after the
job record has already been mutated (retry log, terminal-failure log,
project-status update: none of them touches the job record again, and an
exception there escapes to the outer `.catch`, which only logs). -/
inductive Phase where
  | phStartLog
  | phWork
  | phCompleting (r : String)
  | phDoneLog
  | phCatchTail
  deriving DecidableEq, Repr

/-- The whole mutable state of the module: the `jobs` map (association list
in insertion order), the `queue` array of job ids, the `isProcessing` flag,
the uuid generator (fresh ids as a counter), the clock, and the suspended
`processJob` continuations. -/
structure EngineState where
  jobs : List (Nat × Job)
  queue : List Nat
  isProcessing : Bool
  nextId : Nat
  now : Nat
  tasks : List (Nat × Phase)
  deriving DecidableEq, Repr

/-- The empty state at module load. -/
def initState : EngineState :=
  { jobs := [], queue := [], isProcessing := false, nextId := 0, now := 0, tasks := [] }

/-- `jobs.get(jobId)`. -/
def lookupJob (jobId : Nat) (jobs : List (Nat × Job)) : Option Job :=
  (jobs.find? (fun p => p.fst == jobId)).map Prod.snd

/-- Point update of the jobs map (the source mutates the record held in the
map in place). -/
def updateJob (jobId : Nat) (f : Job → Job) (jobs : List (Nat × Job)) :
    List (Nat × Job) :=
  jobs.map (fun p => if p.fst == jobId then (p.fst, f p.snd) else p)

/-- `Array.from(jobs.values()).filter(job => job.status === RUNNING).length`
(source lines 216-218). -/
def runningCount (jobs : List (Nat × Job)) : Nat :=
  (jobs.filter (fun p => p.snd.status == JobStatus.running)).length

/-- The job record `addJob` creates (source lines 178-189): fresh id, the
given type and payload, state PENDING, `createdAt` now, all other fields
null/zero. -/
def newJob (ty : String) (d : JobData) (s : EngineState) : Job :=
  { id := s.nextId, type := ty, data := d, status := JobStatus.pending,
    createdAt := s.now, startedAt := none, completedAt := none,
    error := none, retryCount := 0, result := none }

/-- `addJob(type, data)` (source lines 175-202): create a fresh PENDING job,
put it in the map, push its id on the queue, and start the scheduler loop if
it is not already running (the `if (!isProcessing) processJobs()` guard makes
`isProcessing` true in either case).  Returns the new job id with the new
state. -/
def addJob (ty : String) (d : JobData) (s : EngineState) : Nat × EngineState :=
  (s.nextId,
    { s with
      jobs := s.jobs ++ [(s.nextId, newJob ty d s)],
      queue := s.queue ++ [s.nextId],
      nextId := s.nextId + 1,
      isProcessing := true })

/-- The synchronous part of `processJob`'s catch block (source lines
309-332): record the error; with retries remaining increment `retryCount`
and revert to PENDING (the caller re-enqueues, source line 318: the returned
flag), otherwise mark FAILED and set `completedAt`.  Note that the retry
path does not restart the scheduler loop. -/
def handleFailure (retryAttempts : Nat) (now : Nat) (e : String) (job : Job) :
    Job × Bool :=
  let job := { job with error := some e }
  if job.retryCount < retryAttempts then
    ({ job with retryCount := job.retryCount + 1, status := JobStatus.pending }, true)
  else
    ({ job with status := JobStatus.failed, completedAt := some now }, false)

/-- Whether `processJob`'s `switch` reaches an `await` for this job type:
CLONE and ANALYZE call an async work function; BUILD and every unknown type
`throw` synchronously inside the switch. -/
def hasAsyncWork (ty : String) : Bool :=
  ty == JobTypeCLONE || ty == JobTypeANALYZE

/-- The synchronous throw of the `switch` for types without a work function:
`'Build job type not yet implemented'` for BUILD, `` `Unknown job type:
${job.type}` `` otherwise. -/
def syncThrowMessage (ty : String) : String :=
  if ty == JobTypeBUILD then "Build job type not yet implemented"
  else "Unknown job type: " ++ ty

/-- The first suspension point of `processJob` after its synchronous prefix:
the start log if the payload names a project, otherwise the work function's
first own `await`. -/
def initialPhase (d : JobData) : Phase :=
  if d.projectId.isSome then Phase.phStartLog else Phase.phWork

/-- `clearCompletedJobs(olderThanMs)` (source lines 492-503): delete every
COMPLETED or FAILED job whose `completedAt` (0 when null) is more than
`olderThanMs` in the past; keep everything else. -/
def clearCompletedJobs (olderThanMs : Nat) (now : Nat)
    (jobs : List (Nat × Job)) : List (Nat × Job) :=
  jobs.filter (fun p =>
    !((p.snd.status == JobStatus.completed || p.snd.status == JobStatus.failed) &&
      decide (now - (p.snd.completedAt.getD 0) > olderThanMs)))

/-- The read-only snapshot `getJobStatus` returns (source lines 441-458). -/
structure JobView where
  id : Nat
  type : String
  status : JobStatus
  createdAt : Nat
  startedAt : Option Nat
  completedAt : Option Nat
  error : Option String
  retryCount : Nat
  result : Option String
  deriving DecidableEq, Repr

/-- `getJobStatus(jobId)` (source lines 441-458). -/
def getJobStatus (jobId : Nat) (s : EngineState) : Option JobView :=
  match lookupJob jobId s.jobs with
  | none => none
  | some job =>
      some { id := job.id, type := job.type, status := job.status,
             createdAt := job.createdAt, startedAt := job.startedAt,
             completedAt := job.completedAt, error := job.error,
             retryCount := job.retryCount, result := job.result }

/-- One observable event of the event loop.  External stimuli: `lsubmit`
(a caller invokes `addJob`), `ltick` (time passes), `lreap` (the 10-minute
`setInterval` fires `clearCompletedJobs()`).  Scheduler: `lloop` is one
iteration of `processJobs`'s while loop (or its exit).  The rest resume one
suspended `await` of an in-flight `processJob`: the start log resolving or
rejecting, the work function resolving (`lworkOk`, carrying its result) or
rejecting (`lworkErr`, carrying the error message), the continuation that
assigns the COMPLETED fields (`lcomplete`), the completion log resolving or
rejecting, and the catch-tail awaits finishing (`lcatchTail`). -/
inductive Label where
  | lsubmit (ty : String) (d : JobData)
  | lloop
  | lstartLogOk (id : Nat)
  | lstartLogThrow (id : Nat) (e : String)
  | lworkOk (id : Nat) (r : String)
  | lworkErr (id : Nat) (e : String)
  | lcomplete (id : Nat) (r : String)
  | ldoneLogOk (id : Nat)
  | ldoneLogThrow (id : Nat) (e : String)
  | lcatchTail (id : Nat)
  | ltick
  | lreap
  deriving DecidableEq, Repr

/-- Remove one occurrence of a suspended continuation. -/
def removeTask (id : Nat) (ph : Phase) (ts : List (Nat × Phase)) :
    List (Nat × Phase) :=
  ts.erase (id, ph)

/-- Run the catch block for job `id` (already looked up as `job`), with the
re-enqueue of source line 318 and the catch-tail awaits that exist exactly
when the payload names a project. -/
def applyFailure (cfg : Config) (id : Nat) (job : Job) (e : String)
    (ts : List (Nat × Phase)) (s : EngineState) : EngineState :=
  let fr := handleFailure cfg.retryAttempts s.now e job
  { s with
    jobs := updateJob id (fun _ => fr.fst) s.jobs,
    queue := if fr.snd then s.queue ++ [id] else s.queue,
    tasks := if job.data.projectId.isSome then ts ++ [(id, Phase.phCatchTail)] else ts }

/-- One labelled step of the system; `none` when the label is not enabled in
`s` (no such continuation is suspended, the loop is not running, ...). -/
def step (cfg : Config) (l : Label) (s : EngineState) : Option EngineState :=
  match l with
  | Label.lsubmit ty d => some (addJob ty d s).snd
  | Label.lloop =>
      if s.isProcessing = false then none
      else
        match s.queue with
        | [] => some { s with isProcessing := false }
        | jobId :: rest =>
            if cfg.maxConcurrent ≤ runningCount s.jobs then
              -- at the ceiling: `await setTimeout(..., 1000)` and re-check
              some { s with now := s.now + 1000 }
            else
              match lookupJob jobId s.jobs with
              | none => some { s with queue := rest }
              | some job =>
                  if job.status ≠ JobStatus.pending then
                    some { s with queue := rest }
                  else
                    -- dispatch: processJob's synchronous prefix
                    let jobRun := { job with status := JobStatus.running,
                                             startedAt := some s.now }
                    if hasAsyncWork job.type || job.data.projectId.isSome then
                      some { s with
                             queue := rest,
                             jobs := updateJob jobId (fun _ => jobRun) s.jobs,
                             tasks := s.tasks ++ [(jobId, initialPhase job.data)] }
                    else
                      -- no awaits at all: the switch throws synchronously and
                      -- the whole catch block runs inside this step
                      let fr := handleFailure cfg.retryAttempts s.now
                                  (syncThrowMessage job.type) jobRun
                      some { s with
                             queue := if fr.snd then rest ++ [jobId] else rest,
                             jobs := updateJob jobId (fun _ => fr.fst) s.jobs }
  | Label.lstartLogOk id =>
      if (id, Phase.phStartLog) ∈ s.tasks then
        let ts := removeTask id Phase.phStartLog s.tasks
        match lookupJob id s.jobs with
        | none => some { s with tasks := ts }
        | some job =>
            if hasAsyncWork job.type then
              some { s with tasks := ts ++ [(id, Phase.phWork)] }
            else
              some (applyFailure cfg id job (syncThrowMessage job.type) ts s)
      else none
  | Label.lstartLogThrow id e =>
      if (id, Phase.phStartLog) ∈ s.tasks then
        let ts := removeTask id Phase.phStartLog s.tasks
        match lookupJob id s.jobs with
        | none => some { s with tasks := ts }
        | some job => some (applyFailure cfg id job e ts s)
      else none
  | Label.lworkOk id r =>
      if (id, Phase.phWork) ∈ s.tasks then
        let ts := removeTask id Phase.phWork s.tasks
        match lookupJob id s.jobs with
        | none => some { s with tasks := ts }
        | some job =>
            if job.type == JobTypeCLONE then
              -- executeCloneJob's success path chains an analyze job
              -- (source lines 389-393) before processJob resumes
              let s1 := (addJob JobTypeANALYZE
                           { projectId := job.data.projectId,
                             projectPath := some r } { s with tasks := ts }).snd
              some { s1 with tasks := s1.tasks ++ [(id, Phase.phCompleting r)] }
            else if job.type == JobTypeANALYZE then
              some { s with tasks := ts ++ [(id, Phase.phCompleting r)] }
            else none
      else none
  | Label.lworkErr id e =>
      if (id, Phase.phWork) ∈ s.tasks then
        let ts := removeTask id Phase.phWork s.tasks
        match lookupJob id s.jobs with
        | none => some { s with tasks := ts }
        | some job => some (applyFailure cfg id job e ts s)
      else none
  | Label.lcomplete id r =>
      if (id, Phase.phCompleting r) ∈ s.tasks then
        let ts := removeTask id (Phase.phCompleting r) s.tasks
        match lookupJob id s.jobs with
        | none => some { s with tasks := ts }
        | some job =>
            let jobDone := { job with status := JobStatus.completed,
                                      completedAt := some s.now,
                                      result := some r }
            some { s with
                   jobs := updateJob id (fun _ => jobDone) s.jobs,
                   tasks := if job.data.projectId.isSome
                            then ts ++ [(id, Phase.phDoneLog)] else ts }
      else none
  | Label.ldoneLogOk id =>
      if (id, Phase.phDoneLog) ∈ s.tasks then
        some { s with tasks := removeTask id Phase.phDoneLog s.tasks }
      else none
  | Label.ldoneLogThrow id e =>
      if (id, Phase.phDoneLog) ∈ s.tasks then
        let ts := removeTask id Phase.phDoneLog s.tasks
        match lookupJob id s.jobs with
        | none => some { s with tasks := ts }
        | some job => some (applyFailure cfg id job e ts s)
      else none
  | Label.lcatchTail id =>
      if (id, Phase.phCatchTail) ∈ s.tasks then
        some { s with tasks := removeTask id Phase.phCatchTail s.tasks }
      else none
  | Label.ltick => some { s with now := s.now + 1 }
  | Label.lreap =>
      some { s with jobs := clearCompletedJobs DEFAULT_RETENTION_MS s.now s.jobs }

/-- Run a list of labels from a state; `none` as soon as one is not enabled. -/
def runTrace (cfg : Config) (ls : List Label) (s : EngineState) :
    Option EngineState :=
  match ls with
  | [] => some s
  | l :: rest =>
      match step cfg l s with
      | none => none
      | some s' => runTrace cfg rest s'

/-! ### Basic lemmas about the jobs map, the queue and the task list -/

theorem lookupJob_nil (j : Nat) : lookupJob j [] = none := rfl

theorem lookupJob_cons (j k : Nat) (v : Job) (t : List (Nat × Job)) :
    lookupJob j ((k, v) :: t) = if k = j then some v else lookupJob j t := by
  by_cases h : k = j
  · simp [lookupJob, List.find?, h]
  · have hb : (k == j) = false := by simpa using h
    simp [lookupJob, List.find?, hb, h]

theorem lookupJob_append (j : Nat) (xs ys : List (Nat × Job)) :
    lookupJob j (xs ++ ys) =
      match lookupJob j xs with
      | some v => some v
      | none => lookupJob j ys := by
  induction xs with
  | nil => simp [lookupJob_nil]
  | cons p t ih =>
      obtain ⟨k, v⟩ := p
      by_cases h : k = j <;> simp [lookupJob_cons, h, ih]

theorem lookupJob_append_left {j : Nat} {xs : List (Nat × Job)} {v : Job}
    (h : lookupJob j xs = some v) (ys : List (Nat × Job)) :
    lookupJob j (xs ++ ys) = some v := by
  rw [lookupJob_append, h]

theorem lookupJob_append_right {j : Nat} {xs : List (Nat × Job)}
    (h : lookupJob j xs = none) (ys : List (Nat × Job)) :
    lookupJob j (xs ++ ys) = lookupJob j ys := by
  rw [lookupJob_append, h]

theorem updateJob_nil (j : Nat) (f : Job → Job) : updateJob j f [] = [] := rfl

theorem updateJob_cons (j k : Nat) (f : Job → Job) (v : Job) (t : List (Nat × Job)) :
    updateJob j f ((k, v) :: t) =
      (if k = j then (k, f v) else (k, v)) :: updateJob j f t := by
  by_cases h : k = j <;> simp [updateJob, h]

theorem lookupJob_updateJob_ne {j k : Nat} (h : k ≠ j) (f : Job → Job)
    (jobs : List (Nat × Job)) :
    lookupJob j (updateJob k f jobs) = lookupJob j jobs := by
  induction jobs with
  | nil => rfl
  | cons p t ih =>
      obtain ⟨k', v⟩ := p
      rw [updateJob_cons]
      by_cases h1 : k' = k
      · subst h1
        simp [lookupJob_cons, h, ih]
      · simp [if_neg h1, lookupJob_cons, ih]

theorem lookupJob_updateJob_self (j : Nat) (f : Job → Job)
    (jobs : List (Nat × Job)) :
    lookupJob j (updateJob j f jobs) = (lookupJob j jobs).map f := by
  induction jobs with
  | nil => rfl
  | cons p t ih =>
      obtain ⟨k, v⟩ := p
      rw [updateJob_cons]
      by_cases h : k = j
      · subst h
        simp [lookupJob_cons, ih]
      · simp [if_neg h, lookupJob_cons, h, ih]

/-- The keys of the jobs map. -/
def jobKeys (jobs : List (Nat × Job)) : List Nat := jobs.map Prod.fst

theorem jobKeys_updateJob (j : Nat) (f : Job → Job) (jobs : List (Nat × Job)) :
    jobKeys (updateJob j f jobs) = jobKeys jobs := by
  induction jobs with
  | nil => rfl
  | cons p t ih =>
      obtain ⟨k, v⟩ := p
      rw [updateJob_cons]
      by_cases h : k = j <;> simp [h, jobKeys] at ih ⊢ <;> exact ih

theorem lookupJob_eq_none_of_not_mem_keys {j : Nat} {jobs : List (Nat × Job)}
    (h : j ∉ jobKeys jobs) : lookupJob j jobs = none := by
  induction jobs with
  | nil => rfl
  | cons p t ih =>
      obtain ⟨k, v⟩ := p
      simp only [jobKeys, List.map_cons, List.mem_cons, not_or] at h
      rw [lookupJob_cons, if_neg (fun hkj => h.1 hkj.symm)]
      exact ih (by simpa [jobKeys] using h.2)

theorem mem_keys_of_lookupJob_some {j : Nat} {jobs : List (Nat × Job)} {v : Job}
    (h : lookupJob j jobs = some v) : j ∈ jobKeys jobs := by
  by_contra hmem
  rw [lookupJob_eq_none_of_not_mem_keys hmem] at h
  exact Option.noConfusion h

theorem updateJob_eq_of_not_mem_keys {j : Nat} {jobs : List (Nat × Job)}
    (h : j ∉ jobKeys jobs) (f : Job → Job) : updateJob j f jobs = jobs := by
  induction jobs with
  | nil => rfl
  | cons p t ih =>
      obtain ⟨k, v⟩ := p
      simp only [jobKeys, List.map_cons, List.mem_cons, not_or] at h
      rw [updateJob_cons, if_neg (fun hkj => h.1 hkj.symm)]
      rw [ih (by simpa [jobKeys] using h.2)]

theorem runningCount_nil : runningCount [] = 0 := rfl

theorem runningCount_cons (k : Nat) (v : Job) (t : List (Nat × Job)) :
    runningCount ((k, v) :: t) =
      (if v.status = JobStatus.running then 1 else 0) + runningCount t := by
  by_cases h : v.status = JobStatus.running <;>
    simp [runningCount, List.filter_cons, h] <;> omega

theorem runningCount_append (xs ys : List (Nat × Job)) :
    runningCount (xs ++ ys) = runningCount xs + runningCount ys := by
  simp [runningCount, List.filter_append]

theorem runningCount_sublist {xs ys : List (Nat × Job)} (h : xs.Sublist ys) :
    runningCount xs ≤ runningCount ys :=
  List.Sublist.length_le (h.filter _)

theorem runningCount_updateJob {j : Nat} (f : Job → Job)
    {jobs : List (Nat × Job)} {jb : Job}
    (hnd : (jobKeys jobs).Nodup) (hl : lookupJob j jobs = some jb) :
    runningCount (updateJob j f jobs) +
        (if jb.status = JobStatus.running then 1 else 0) =
      runningCount jobs + (if (f jb).status = JobStatus.running then 1 else 0) := by
  induction jobs with
  | nil => exact absurd hl (by simp [lookupJob_nil])
  | cons p t ih =>
      obtain ⟨k, v⟩ := p
      simp only [jobKeys, List.map_cons, List.nodup_cons] at hnd
      rw [lookupJob_cons] at hl
      rw [updateJob_cons]
      by_cases h : k = j
      · rw [if_pos h] at hl ⊢
        obtain rfl : v = jb := by injection hl
        subst h
        rw [updateJob_eq_of_not_mem_keys (by simpa [jobKeys] using hnd.1) f]
        rw [runningCount_cons, runningCount_cons]
        omega
      · rw [if_neg h] at hl ⊢
        have := ih hnd.2 hl
        rw [runningCount_cons, runningCount_cons]
        omega

theorem runningCount_updateJob_le {j : Nat} {f : Job → Job}
    {jobs : List (Nat × Job)} {jb : Job}
    (hnd : (jobKeys jobs).Nodup) (hl : lookupJob j jobs = some jb)
    (hf : (f jb).status ≠ JobStatus.running) :
    runningCount (updateJob j f jobs) ≤ runningCount jobs := by
  have := runningCount_updateJob f hnd hl
  rw [if_neg hf] at this
  omega

theorem runningCount_updateJob_of_dispatch {j : Nat} {f : Job → Job}
    {jobs : List (Nat × Job)} {jb : Job}
    (hnd : (jobKeys jobs).Nodup) (hl : lookupJob j jobs = some jb)
    (hp : jb.status ≠ JobStatus.running) (hf : (f jb).status = JobStatus.running) :
    runningCount (updateJob j f jobs) = runningCount jobs + 1 := by
  have := runningCount_updateJob f hnd hl
  rw [if_neg hp, if_pos hf] at this
  omega

theorem handleFailure_status_not_running (R now : Nat) (e : String) (job : Job) :
    (handleFailure R now e job).fst.status ≠ JobStatus.running := by
  by_cases h : job.retryCount < R <;> simp [handleFailure, h]

/-! ### Step-shape lemmas: how `step` unfolds for each label -/

theorem step_submit (cfg : Config) (ty : String) (d : JobData) (s : EngineState) :
    step cfg (Label.lsubmit ty d) s = some (addJob ty d s).snd := rfl

theorem step_tick (cfg : Config) (s : EngineState) :
    step cfg Label.ltick s = some { s with now := s.now + 1 } := rfl

theorem step_reap (cfg : Config) (s : EngineState) :
    step cfg Label.lreap s =
      some { s with jobs := clearCompletedJobs DEFAULT_RETENTION_MS s.now s.jobs } := rfl

theorem step_loop_idle {cfg : Config} {s : EngineState}
    (h : s.isProcessing = false) : step cfg Label.lloop s = none := by
  simp [step, h]

theorem step_loop_exit {cfg : Config} {s : EngineState}
    (h : s.isProcessing = true) (hq : s.queue = []) :
    step cfg Label.lloop s = some { s with isProcessing := false } := by
  simp [step, h, hq]

theorem step_loop_wait {cfg : Config} {s : EngineState} {jobId : Nat} {rest : List Nat}
    (h : s.isProcessing = true) (hq : s.queue = jobId :: rest)
    (hc : cfg.maxConcurrent ≤ runningCount s.jobs) :
    step cfg Label.lloop s = some { s with now := s.now + 1000 } := by
  simp [step, h, hq, hc]

theorem step_loop_stale {cfg : Config} {s : EngineState} {jobId : Nat} {rest : List Nat}
    (h : s.isProcessing = true) (hq : s.queue = jobId :: rest)
    (hc : ¬ cfg.maxConcurrent ≤ runningCount s.jobs)
    (hl : lookupJob jobId s.jobs = none) :
    step cfg Label.lloop s = some { s with queue := rest } := by
  simp [step, h, hq, hc, hl]

theorem step_loop_skip {cfg : Config} {s : EngineState} {jobId : Nat} {rest : List Nat}
    {job : Job}
    (h : s.isProcessing = true) (hq : s.queue = jobId :: rest)
    (hc : ¬ cfg.maxConcurrent ≤ runningCount s.jobs)
    (hl : lookupJob jobId s.jobs = some job) (hs : job.status ≠ JobStatus.pending) :
    step cfg Label.lloop s = some { s with queue := rest } := by
  simp [step, h, hq, hc, hl, hs]

theorem step_loop_dispatch {cfg : Config} {s : EngineState} {jobId : Nat}
    {rest : List Nat} {job : Job}
    (h : s.isProcessing = true) (hq : s.queue = jobId :: rest)
    (hc : ¬ cfg.maxConcurrent ≤ runningCount s.jobs)
    (hl : lookupJob jobId s.jobs = some job) (hs : job.status = JobStatus.pending)
    (ha : (hasAsyncWork job.type || job.data.projectId.isSome) = true) :
    step cfg Label.lloop s =
      some { s with
             queue := rest,
             jobs := updateJob jobId
               (fun _ => { job with status := JobStatus.running,
                                    startedAt := some s.now }) s.jobs,
             tasks := s.tasks ++ [(jobId, initialPhase job.data)] } := by
  simp [step, h, hq, hc, hl, hs, ha]

theorem step_loop_dispatch_sync {cfg : Config} {s : EngineState} {jobId : Nat}
    {rest : List Nat} {job : Job}
    (h : s.isProcessing = true) (hq : s.queue = jobId :: rest)
    (hc : ¬ cfg.maxConcurrent ≤ runningCount s.jobs)
    (hl : lookupJob jobId s.jobs = some job) (hs : job.status = JobStatus.pending)
    (ha : (hasAsyncWork job.type || job.data.projectId.isSome) = false) :
    step cfg Label.lloop s =
      some { s with
             queue := if (handleFailure cfg.retryAttempts s.now
                           (syncThrowMessage job.type)
                           { job with status := JobStatus.running,
                                      startedAt := some s.now }).snd
                      then rest ++ [jobId] else rest,
             jobs := updateJob jobId
               (fun _ => (handleFailure cfg.retryAttempts s.now
                           (syncThrowMessage job.type)
                           { job with status := JobStatus.running,
                                      startedAt := some s.now }).fst) s.jobs } := by
  simp [step, h, hq, hc, hl, hs, ha]

theorem step_startLogOk_none {cfg : Config} {s : EngineState} {id : Nat}
    (h : (id, Phase.phStartLog) ∉ s.tasks) :
    step cfg (Label.lstartLogOk id) s = none := by
  simp [step, h]

theorem step_startLogOk_orphan {cfg : Config} {s : EngineState} {id : Nat}
    (h : (id, Phase.phStartLog) ∈ s.tasks) (hl : lookupJob id s.jobs = none) :
    step cfg (Label.lstartLogOk id) s =
      some { s with tasks := removeTask id Phase.phStartLog s.tasks } := by
  simp [step, h, hl]

theorem step_startLogOk_async {cfg : Config} {s : EngineState} {id : Nat} {job : Job}
    (h : (id, Phase.phStartLog) ∈ s.tasks) (hl : lookupJob id s.jobs = some job)
    (ha : hasAsyncWork job.type = true) :
    step cfg (Label.lstartLogOk id) s =
      some { s with tasks := removeTask id Phase.phStartLog s.tasks ++
                             [(id, Phase.phWork)] } := by
  simp [step, h, hl, ha]

theorem step_startLogOk_sync {cfg : Config} {s : EngineState} {id : Nat} {job : Job}
    (h : (id, Phase.phStartLog) ∈ s.tasks) (hl : lookupJob id s.jobs = some job)
    (ha : hasAsyncWork job.type = false) :
    step cfg (Label.lstartLogOk id) s =
      some (applyFailure cfg id job (syncThrowMessage job.type)
             (removeTask id Phase.phStartLog s.tasks) s) := by
  simp [step, h, hl, ha]

theorem step_startLogThrow_none {cfg : Config} {s : EngineState} {id : Nat}
    {e : String} (h : (id, Phase.phStartLog) ∉ s.tasks) :
    step cfg (Label.lstartLogThrow id e) s = none := by
  simp [step, h]

theorem step_startLogThrow_orphan {cfg : Config} {s : EngineState} {id : Nat}
    {e : String} (h : (id, Phase.phStartLog) ∈ s.tasks)
    (hl : lookupJob id s.jobs = none) :
    step cfg (Label.lstartLogThrow id e) s =
      some { s with tasks := removeTask id Phase.phStartLog s.tasks } := by
  simp [step, h, hl]

theorem step_startLogThrow_some {cfg : Config} {s : EngineState} {id : Nat}
    {e : String} {job : Job} (h : (id, Phase.phStartLog) ∈ s.tasks)
    (hl : lookupJob id s.jobs = some job) :
    step cfg (Label.lstartLogThrow id e) s =
      some (applyFailure cfg id job e (removeTask id Phase.phStartLog s.tasks) s) := by
  simp [step, h, hl]

theorem step_workOk_none {cfg : Config} {s : EngineState} {id : Nat} {r : String}
    (h : (id, Phase.phWork) ∉ s.tasks) :
    step cfg (Label.lworkOk id r) s = none := by
  simp [step, h]

theorem step_workOk_orphan {cfg : Config} {s : EngineState} {id : Nat} {r : String}
    (h : (id, Phase.phWork) ∈ s.tasks) (hl : lookupJob id s.jobs = none) :
    step cfg (Label.lworkOk id r) s =
      some { s with tasks := removeTask id Phase.phWork s.tasks } := by
  simp [step, h, hl]

theorem step_workOk_clone {cfg : Config} {s : EngineState} {id : Nat} {r : String}
    {job : Job} (h : (id, Phase.phWork) ∈ s.tasks)
    (hl : lookupJob id s.jobs = some job) (ht : job.type = JobTypeCLONE) :
    step cfg (Label.lworkOk id r) s =
      some (let s1 := (addJob JobTypeANALYZE
                        { projectId := job.data.projectId, projectPath := some r }
                        { s with tasks := removeTask id Phase.phWork s.tasks }).snd
            { s1 with tasks := s1.tasks ++ [(id, Phase.phCompleting r)] }) := by
  simp [step, h, hl, ht]

theorem step_workOk_analyze {cfg : Config} {s : EngineState} {id : Nat} {r : String}
    {job : Job} (h : (id, Phase.phWork) ∈ s.tasks)
    (hl : lookupJob id s.jobs = some job) (ht : job.type = JobTypeANALYZE) :
    step cfg (Label.lworkOk id r) s =
      some { s with tasks := removeTask id Phase.phWork s.tasks ++
                             [(id, Phase.phCompleting r)] } := by
  have hne : JobTypeANALYZE ≠ JobTypeCLONE := by decide
  simp [step, h, hl, ht, hne]

theorem step_workErr_none {cfg : Config} {s : EngineState} {id : Nat} {e : String}
    (h : (id, Phase.phWork) ∉ s.tasks) :
    step cfg (Label.lworkErr id e) s = none := by
  simp [step, h]

theorem step_workErr_orphan {cfg : Config} {s : EngineState} {id : Nat} {e : String}
    (h : (id, Phase.phWork) ∈ s.tasks) (hl : lookupJob id s.jobs = none) :
    step cfg (Label.lworkErr id e) s =
      some { s with tasks := removeTask id Phase.phWork s.tasks } := by
  simp [step, h, hl]

theorem step_workErr_some {cfg : Config} {s : EngineState} {id : Nat} {e : String}
    {job : Job} (h : (id, Phase.phWork) ∈ s.tasks)
    (hl : lookupJob id s.jobs = some job) :
    step cfg (Label.lworkErr id e) s =
      some (applyFailure cfg id job e (removeTask id Phase.phWork s.tasks) s) := by
  simp [step, h, hl]

theorem step_complete_none {cfg : Config} {s : EngineState} {id : Nat} {r : String}
    (h : (id, Phase.phCompleting r) ∉ s.tasks) :
    step cfg (Label.lcomplete id r) s = none := by
  simp [step, h]

theorem step_complete_orphan {cfg : Config} {s : EngineState} {id : Nat} {r : String}
    (h : (id, Phase.phCompleting r) ∈ s.tasks) (hl : lookupJob id s.jobs = none) :
    step cfg (Label.lcomplete id r) s =
      some { s with tasks := removeTask id (Phase.phCompleting r) s.tasks } := by
  simp [step, h, hl]

theorem step_complete_some {cfg : Config} {s : EngineState} {id : Nat} {r : String}
    {job : Job} (h : (id, Phase.phCompleting r) ∈ s.tasks)
    (hl : lookupJob id s.jobs = some job) :
    step cfg (Label.lcomplete id r) s =
      some { s with
             jobs := updateJob id
               (fun _ => { job with status := JobStatus.completed,
                                    completedAt := some s.now,
                                    result := some r }) s.jobs,
             tasks := if job.data.projectId.isSome
                      then removeTask id (Phase.phCompleting r) s.tasks ++
                           [(id, Phase.phDoneLog)]
                      else removeTask id (Phase.phCompleting r) s.tasks } := by
  by_cases hp : job.data.projectId.isSome <;> simp [step, h, hl, hp]

theorem step_doneLogOk_none {cfg : Config} {s : EngineState} {id : Nat}
    (h : (id, Phase.phDoneLog) ∉ s.tasks) :
    step cfg (Label.ldoneLogOk id) s = none := by
  simp [step, h]

theorem step_doneLogOk_some {cfg : Config} {s : EngineState} {id : Nat}
    (h : (id, Phase.phDoneLog) ∈ s.tasks) :
    step cfg (Label.ldoneLogOk id) s =
      some { s with tasks := removeTask id Phase.phDoneLog s.tasks } := by
  simp [step, h]

theorem step_doneLogThrow_none {cfg : Config} {s : EngineState} {id : Nat}
    {e : String} (h : (id, Phase.phDoneLog) ∉ s.tasks) :
    step cfg (Label.ldoneLogThrow id e) s = none := by
  simp [step, h]

theorem step_doneLogThrow_orphan {cfg : Config} {s : EngineState} {id : Nat}
    {e : String} (h : (id, Phase.phDoneLog) ∈ s.tasks)
    (hl : lookupJob id s.jobs = none) :
    step cfg (Label.ldoneLogThrow id e) s =
      some { s with tasks := removeTask id Phase.phDoneLog s.tasks } := by
  simp [step, h, hl]

theorem step_doneLogThrow_some {cfg : Config} {s : EngineState} {id : Nat}
    {e : String} {job : Job} (h : (id, Phase.phDoneLog) ∈ s.tasks)
    (hl : lookupJob id s.jobs = some job) :
    step cfg (Label.ldoneLogThrow id e) s =
      some (applyFailure cfg id job e (removeTask id Phase.phDoneLog s.tasks) s) := by
  simp [step, h, hl]

theorem step_catchTail_none {cfg : Config} {s : EngineState} {id : Nat}
    (h : (id, Phase.phCatchTail) ∉ s.tasks) :
    step cfg (Label.lcatchTail id) s = none := by
  simp [step, h]

theorem step_catchTail_some {cfg : Config} {s : EngineState} {id : Nat}
    (h : (id, Phase.phCatchTail) ∈ s.tasks) :
    step cfg (Label.lcatchTail id) s =
      some { s with tasks := removeTask id Phase.phCatchTail s.tasks } := by
  simp [step, h]

/-! ### The per-job view of the task list and of the queue -/

/-- The suspended continuations belonging to one job id. -/
def tasksFor (j : Nat) (ts : List (Nat × Phase)) : List (Nat × Phase) :=
  ts.filter (fun p => p.fst == j)

/-- How many entries for `j` the queue holds. -/
def queueCount (j : Nat) (q : List Nat) : Nat := q.count j

theorem tasksFor_nil (j : Nat) : tasksFor j [] = [] := rfl

theorem tasksFor_append (j : Nat) (ts1 ts2 : List (Nat × Phase)) :
    tasksFor j (ts1 ++ ts2) = tasksFor j ts1 ++ tasksFor j ts2 := by
  simp [tasksFor, List.filter_append]

theorem tasksFor_cons_self (j : Nat) (ph : Phase) (ts : List (Nat × Phase)) :
    tasksFor j ((j, ph) :: ts) = (j, ph) :: tasksFor j ts := by
  simp [tasksFor, List.filter_cons]

theorem tasksFor_cons_ne {i j : Nat} (h : i ≠ j) (ph : Phase)
    (ts : List (Nat × Phase)) :
    tasksFor j ((i, ph) :: ts) = tasksFor j ts := by
  simp [tasksFor, List.filter_cons, h]

theorem tasksFor_singleton_ne {i j : Nat} (h : i ≠ j) (ph : Phase) :
    tasksFor j [(i, ph)] = [] := by
  simp [tasksFor_cons_ne h, tasksFor_nil]

theorem mem_tasksFor_iff (j : Nat) (ph : Phase) (ts : List (Nat × Phase)) :
    (j, ph) ∈ tasksFor j ts ↔ (j, ph) ∈ ts := by
  simp [tasksFor, List.mem_filter]

theorem tasksFor_erase_ne {i j : Nat} (h : i ≠ j) (ph : Phase)
    (ts : List (Nat × Phase)) :
    tasksFor j (ts.erase (i, ph)) = tasksFor j ts := by
  induction ts with
  | nil => rfl
  | cons p t ih =>
      obtain ⟨k, q⟩ := p
      by_cases hp : (k, q) = (i, ph)
      · injection hp with h1 h2
        subst h1; subst h2
        rw [List.erase_cons_head, tasksFor_cons_ne h]
      · have hb : ¬ (((k, q) == (i, ph)) = true) := by simpa using hp
        rw [List.erase_cons, if_neg hb]
        by_cases hk : k = j
        · subst hk
          rw [tasksFor_cons_self, tasksFor_cons_self, ih]
        · rw [tasksFor_cons_ne hk, tasksFor_cons_ne hk, ih]

theorem tasksFor_erase_self (j : Nat) (ph : Phase) (ts : List (Nat × Phase)) :
    tasksFor j (ts.erase (j, ph)) = (tasksFor j ts).erase (j, ph) := by
  induction ts with
  | nil => rfl
  | cons p t ih =>
      obtain ⟨k, q⟩ := p
      by_cases hp : (k, q) = (j, ph)
      · injection hp with h1 h2
        subst h1; subst h2
        rw [List.erase_cons_head, tasksFor_cons_self, List.erase_cons_head]
      · have hb : ¬ (((k, q) == (j, ph)) = true) := by simpa using hp
        rw [List.erase_cons, if_neg hb]
        by_cases hk : k = j
        · subst hk
          rw [tasksFor_cons_self, tasksFor_cons_self, ih,
              List.erase_cons, if_neg hb]
        · rw [tasksFor_cons_ne hk, tasksFor_cons_ne hk, ih]

theorem queueCount_nil (j : Nat) : queueCount j [] = 0 := rfl

theorem queueCount_append (j : Nat) (q1 q2 : List Nat) :
    queueCount j (q1 ++ q2) = queueCount j q1 + queueCount j q2 := by
  simp [queueCount, List.count_append]

theorem queueCount_cons_self (j : Nat) (q : List Nat) :
    queueCount j (j :: q) = queueCount j q + 1 := by
  simp [queueCount, List.count_cons]

theorem queueCount_cons_ne {i j : Nat} (h : i ≠ j) (q : List Nat) :
    queueCount j (i :: q) = queueCount j q := by
  simp [queueCount, List.count_cons, h]

theorem queueCount_singleton_ne {i j : Nat} (h : i ≠ j) :
    queueCount j [i] = 0 := by
  rw [queueCount_cons_ne h, queueCount_nil]

theorem queueCount_singleton_self (j : Nat) : queueCount j [j] = 1 := by
  rw [queueCount_cons_self, queueCount_nil]

/-! ### Well-formedness of the id space: generated ids are unique -/

/-- All keys of the jobs map were generated (below `nextId`) and are
pairwise distinct (the source's uuids never collide). -/
def keysWFon (jobs : List (Nat × Job)) (nextId : Nat) : Prop :=
  (∀ k ∈ jobKeys jobs, k < nextId) ∧ (jobKeys jobs).Nodup

/-- The id-space invariant on a whole state. -/
def KeysWF (s : EngineState) : Prop := keysWFon s.jobs s.nextId

theorem keysWFon_append_fresh {jobs : List (Nat × Job)} {n : Nat} {jb : Job}
    (h : keysWFon jobs n) : keysWFon (jobs ++ [(n, jb)]) (n + 1) := by
  constructor
  · intro k hk
    simp only [jobKeys, List.map_append] at hk
    rcases List.mem_append.mp hk with hk | hk
    · exact Nat.lt_succ_of_lt (h.1 k hk)
    · simp at hk
      omega
  · simp only [jobKeys, List.map_append]
    refine List.Nodup.append h.2 (by simp) ?_
    intro k hk1 hk2
    simp at hk2
    subst hk2
    exact absurd (h.1 _ hk1) (lt_irrefl _)

theorem keysWFon_update (id : Nat) (f : Job → Job) {jobs : List (Nat × Job)}
    {n : Nat} (h : keysWFon jobs n) : keysWFon (updateJob id f jobs) n := by
  unfold keysWFon
  rw [jobKeys_updateJob]
  exact h

theorem keysWFon_sublist {jobs' jobs : List (Nat × Job)} {n : Nat}
    (hs : jobs'.Sublist jobs) (h : keysWFon jobs n) : keysWFon jobs' n := by
  refine ⟨fun k hk => h.1 k ((hs.map Prod.fst).subset hk), ?_⟩
  exact List.Nodup.sublist (hs.map Prod.fst) h.2

theorem keysWFon_filter (p : Nat × Job → Bool) {jobs : List (Nat × Job)}
    {n : Nat} (h : keysWFon jobs n) : keysWFon (jobs.filter p) n :=
  keysWFon_sublist (List.filter_sublist jobs) h

theorem keysWF_step {cfg : Config} {l : Label} {s s' : EngineState}
    (h : step cfg l s = some s') (hwf : KeysWF s) : KeysWF s' := by
  cases l <;> simp only [step] at h <;> repeat' split at h
  all_goals first
    | exact Option.noConfusion h
    | (injection h with h2; subst h2
       simp only [KeysWF, addJob, applyFailure, clearCompletedJobs] at hwf ⊢
       first
        | exact hwf
        | exact keysWFon_append_fresh hwf
        | exact keysWFon_update _ _ hwf
        | exact keysWFon_filter _ hwf)

theorem runningCount_updateJob_lt {j : Nat} {f : Job → Job} {C : Nat}
    {jobs : List (Nat × Job)} {jb : Job}
    (hnd : (jobKeys jobs).Nodup) (hl : lookupJob j jobs = some jb)
    (hp : jb.status = JobStatus.pending)
    (hC : ¬ C ≤ runningCount jobs) :
    runningCount (updateJob j f jobs) ≤ C := by
  have h := runningCount_updateJob f hnd hl
  rw [if_neg (by simp [hp])] at h
  by_cases hfr : (f jb).status = JobStatus.running
  · rw [if_pos hfr] at h
    omega
  · rw [if_neg hfr] at h
    omega

theorem runningCount_step_le {cfg : Config} {l : Label} {s s' : EngineState}
    (h : step cfg l s = some s') (hwf : KeysWF s)
    (hc : runningCount s.jobs ≤ cfg.maxConcurrent) :
    runningCount s'.jobs ≤ cfg.maxConcurrent := by
  cases l <;> simp only [step] at h <;> repeat' split at h
  all_goals first
    | exact Option.noConfusion h
    | (injection h with h2; subst h2
       try simp only [applyFailure, addJob]
       try dsimp only
       first
        | exact hc
        | exact runningCount_updateJob_lt hwf.2 (by assumption)
            (of_not_not (by assumption)) (by assumption)
        | simpa [runningCount_append, runningCount_cons,
                 runningCount_nil] using hc
        | exact le_trans (runningCount_updateJob_le hwf.2 (by assumption)
            (handleFailure_status_not_running _ _ _ _)) hc
        | exact le_trans (runningCount_updateJob_le hwf.2 (by assumption)
            (by simp)) hc
        | exact le_trans (runningCount_sublist
            (by simp only [clearCompletedJobs]; exact List.filter_sublist _)) hc)

theorem keysWF_init : KeysWF initState := by
  constructor <;> simp [initState, jobKeys]

theorem runTrace_conc {cfg : Config} {ls : List Label} {s s' : EngineState}
    (h : runTrace cfg ls s = some s') (hwf : KeysWF s)
    (hc : runningCount s.jobs ≤ cfg.maxConcurrent) :
    KeysWF s' ∧ runningCount s'.jobs ≤ cfg.maxConcurrent := by
  induction ls generalizing s with
  | nil =>
      simp only [runTrace] at h
      injection h with h2
      subst h2
      exact ⟨hwf, hc⟩
  | cons l rest ih =>
      simp only [runTrace] at h
      cases hstep : step cfg l s with
      | none => rw [hstep] at h; exact Option.noConfusion h
      | some s1 =>
          rw [hstep] at h
          exact ih h (keysWF_step hstep hwf) (runningCount_step_le hstep hwf hc)

/-- Every state reached from the initial state keeps the id-space invariant. -/
theorem runTrace_keysWF {cfg : Config} {ls : List Label} {s : EngineState}
    (h : runTrace cfg ls initState = some s) : KeysWF s :=
  (runTrace_conc h keysWF_init (by simp [initState, runningCount])).1

/-- **C1** (concurrency ceiling): for every configuration `C =
maxConcurrency` and every event trace of the engine from the initial state
— in particular when `C + 5` or more jobs are submitted at once — at no
reachable state do more than `C` jobs hold state RUNNING: the scheduler loop
dispatches a dequeued PENDING job only after counting fewer than `C` running
jobs across the whole job table, and otherwise only waits (the 1000 ms
`setTimeout` branch of `step`) and re-checks. -/
theorem claim_c1_concurrency_ceiling (cfg : Config) (ls : List Label)
    (s : EngineState) (h : runTrace cfg ls initState = some s) :
    runningCount s.jobs ≤ cfg.maxConcurrent :=
  (runTrace_conc h keysWF_init (by simp [initState, runningCount])).2

/-- A concrete run for the C1 witness: eight CLONE jobs submitted at once
(`C + 5` for the default ceiling 3), then four scheduler iterations (three
dispatches and one at-capacity wait). -/
def c1WitnessTrace : List Label :=
  [Label.lsubmit JobTypeCLONE {}, Label.lsubmit JobTypeCLONE {},
   Label.lsubmit JobTypeCLONE {}, Label.lsubmit JobTypeCLONE {},
   Label.lsubmit JobTypeCLONE {}, Label.lsubmit JobTypeCLONE {},
   Label.lsubmit JobTypeCLONE {}, Label.lsubmit JobTypeCLONE {},
   Label.lloop, Label.lloop, Label.lloop, Label.lloop]

/-- The state that run reaches. -/
def c1WitnessState : EngineState :=
  (runTrace defaultConfig c1WitnessTrace initState).getD initState

theorem claim_c1_concurrency_ceiling_witness :
    runTrace defaultConfig c1WitnessTrace initState = some c1WitnessState ∧
      runningCount c1WitnessState.jobs ≤ defaultConfig.maxConcurrent :=
  ⟨rfl, claim_c1_concurrency_ceiling defaultConfig c1WitnessTrace
      c1WitnessState rfl⟩

/-! ### Retry exhaustion: the per-job attempt-counting invariant -/

theorem mem_of_lookupJob_some {j : Nat} {jobs : List (Nat × Job)} {jb : Job}
    (h : lookupJob j jobs = some jb) : (j, jb) ∈ jobs := by
  unfold lookupJob at h
  cases hf : jobs.find? (fun p => p.fst == j) with
  | none => rw [hf] at h; exact Option.noConfusion h
  | some q =>
      rw [hf] at h
      obtain ⟨k, v⟩ := q
      have hm := List.mem_of_find?_eq_some hf
      have hp := List.find?_some hf
      have h2 : v = jb := by simpa using h
      have h3 : k = j := by simpa using hp
      subst h2
      subst h3
      exact hm

/-- Every job in the table has a registered asynchronous work function
(CLONE or ANALYZE) and a payload without `projectId`, so its processing
never touches the log sink. -/
def goodJobsOn (jobs : List (Nat × Job)) : Prop :=
  ∀ p ∈ jobs, (p.snd.type = JobTypeCLONE ∨ p.snd.type = JobTypeANALYZE) ∧
    p.snd.data.projectId = none

/-- `goodJobsOn` on a whole state. -/
def GoodJobs (s : EngineState) : Prop := goodJobsOn s.jobs

/-- A label is good when it is not a submission of an unregistered kind or
of a payload carrying a `projectId`. -/
def goodLabel : Label → Prop
  | Label.lsubmit ty d =>
      (ty = JobTypeCLONE ∨ ty = JobTypeANALYZE) ∧ d.projectId = none
  | _ => True

/-- A label that is not a successful work step for job `j`. -/
def noWorkOkFor (j : Nat) : Label → Prop
  | Label.lworkOk i _ => i ≠ j
  | _ => True

/-- A label that is not a reaper sweep. -/
def notReap : Label → Prop
  | Label.lreap => False
  | _ => True

/-- A work-function execution step (resolution or rejection) of job `j`. -/
def isWorkLabelFor (j : Nat) : Label → Bool
  | Label.lworkOk i _ => i == j
  | Label.lworkErr i _ => i == j
  | _ => false

/-- The number of work-function executions for job `j` a trace contains. -/
def workCount (j : Nat) (ls : List Label) : Nat :=
  (ls.filter (isWorkLabelFor j)).length

theorem workCount_nil (j : Nat) : workCount j [] = 0 := rfl

theorem workCount_cons (j : Nat) (l : Label) (ls : List Label) :
    workCount j (l :: ls) =
      (if isWorkLabelFor j l then 1 else 0) + workCount j ls := by
  simp only [workCount, List.filter_cons]
  by_cases h : isWorkLabelFor j l = true
  · rw [if_pos h, if_pos h, List.length_cons]
    omega
  · rw [if_neg h, if_neg h]
    omega

theorem handleFailure_preserves_type_data (R now : Nat) (e : String)
    (job : Job) :
    (handleFailure R now e job).fst.type = job.type ∧
      (handleFailure R now e job).fst.data = job.data := by
  by_cases h : job.retryCount < R <;> simp [handleFailure, h]

theorem goodJobsOn_update_const (id : Nat) (newJob : Job)
    (hnew : (newJob.type = JobTypeCLONE ∨ newJob.type = JobTypeANALYZE) ∧
      newJob.data.projectId = none)
    {jobs : List (Nat × Job)} (h : goodJobsOn jobs) :
    goodJobsOn (updateJob id (fun _ => newJob) jobs) := by
  intro p hp
  simp only [updateJob, List.mem_map] at hp
  obtain ⟨q, hq, rfl⟩ := hp
  by_cases hqid : (q.fst == id) = true
  · rw [if_pos hqid]
    exact hnew
  · rw [if_neg hqid]
    exact h q hq

theorem goodJobsOn_append {xs ys : List (Nat × Job)}
    (hx : goodJobsOn xs) (hy : goodJobsOn ys) : goodJobsOn (xs ++ ys) := by
  intro p hp
  rcases List.mem_append.mp hp with hp | hp
  · exact hx p hp
  · exact hy p hp

theorem goodJobsOn_filter (p : Nat × Job → Bool) {jobs : List (Nat × Job)}
    (h : goodJobsOn jobs) : goodJobsOn (jobs.filter p) :=
  fun q hq => h q (List.mem_of_mem_filter hq)

theorem goodJobs_step {cfg : Config} {l : Label} {s s' : EngineState}
    (h : step cfg l s = some s') (hg : GoodJobs s) (hgl : goodLabel l) :
    GoodJobs s' := by
  cases l <;> simp only [step] at h <;> repeat' split at h
  all_goals first
    | exact Option.noConfusion h
    | (injection h with h2; subst h2
       try simp only [applyFailure, addJob, clearCompletedJobs]
       first
        | exact hg
        | exact goodJobsOn_filter _ hg
        | (refine goodJobsOn_update_const _ _ ?_ hg
           have hj := hg _ (mem_of_lookupJob_some (by assumption))
           exact hj)
        | (refine goodJobsOn_update_const _ _ ?_ hg
           have hj := hg _ (mem_of_lookupJob_some (by assumption))
           rw [(handleFailure_preserves_type_data _ _ _ _).1,
               (handleFailure_preserves_type_data _ _ _ _).2]
           exact hj)
        | exact goodJobsOn_append hg
            (by intro p hp
                simp only [List.mem_singleton] at hp
                subst hp
                exact ⟨hgl.1, hgl.2⟩)
        | exact goodJobsOn_append hg
            (by intro p hp
                simp only [List.mem_singleton] at hp
                subst hp
                have hpid := (hg _ (mem_of_lookupJob_some (by assumption))).2
                exact ⟨Or.inr rfl, hpid⟩))

theorem not_mem_of_tasksFor_nil {j : Nat} {ph : Phase} {ts : List (Nat × Phase)}
    (h : tasksFor j ts = []) : (j, ph) ∉ ts := by
  intro hm
  have hmem := (mem_tasksFor_iff j ph ts).mpr hm
  rw [h] at hmem
  exact List.not_mem_nil _ hmem

theorem eq_phase_of_tasksFor_single {j : Nat} {ph ph' : Phase}
    {ts : List (Nat × Phase)}
    (h : tasksFor j ts = [(j, ph')]) (hm : (j, ph) ∈ ts) : ph = ph' := by
  have hmem := (mem_tasksFor_iff j ph ts).mpr hm
  rw [h] at hmem
  simp only [List.mem_singleton, Prod.mk.injEq] at hmem
  exact hmem.2

/-- The body of the retry-exhaustion invariant, as a function of the
components that concern job `j`: its record, its queue multiplicity, its
suspended continuations, and the id generator. -/
def JInvAt (R j W : Nat) (ob : Option Job) (qc : Nat)
    (tf : List (Nat × Phase)) (nid : Nat) : Prop :=
  match ob with
  | none => nid ≤ j ∧ W = 0 ∧ qc = 0 ∧ tf = []
  | some jb =>
      (jb.status = JobStatus.pending ∧ jb.retryCount = W ∧ W ≤ R ∧
        qc = 1 ∧ tf = []) ∨
      (jb.status = JobStatus.running ∧ jb.retryCount = W ∧ W ≤ R ∧
        qc = 0 ∧ tf = [(j, Phase.phWork)]) ∨
      (jb.status = JobStatus.failed ∧ jb.retryCount = R ∧ W = R + 1 ∧
        jb.completedAt ≠ none ∧ qc = 0 ∧ tf = [])

/-- Retry-exhaustion invariant for an always-failing job `j`, indexed by how
many times `W` its work function has executed so far: while PENDING the job
has been failed `W ≤ R` times (`retryCount = W`) and sits exactly once in the
queue; while RUNNING its only continuation is the work `await`; once FAILED
it has run exactly `R + 1` times, `retryCount = R`, and `completedAt` is
set. -/
def JInv (R j W : Nat) (s : EngineState) : Prop :=
  JInvAt R j W (lookupJob j s.jobs) (queueCount j s.queue)
    (tasksFor j s.tasks) s.nextId

theorem jinv_congr {R j W : Nat} {s : EngineState} (s' : EngineState)
    (hinv : JInv R j W s)
    (hj : lookupJob j s'.jobs = lookupJob j s.jobs)
    (hq : queueCount j s'.queue = queueCount j s.queue)
    (ht : tasksFor j s'.tasks = tasksFor j s.tasks)
    (hn : s'.nextId = s.nextId) : JInv R j W s' := by
  unfold JInv at *
  rw [hj, hq, ht, hn]
  exact hinv

theorem jinv_congr_some {R j W : Nat} {s : EngineState} (s' : EngineState)
    {jb : Job} (hinv : JInv R j W s)
    (hjs : lookupJob j s.jobs = some jb)
    (hj : lookupJob j s'.jobs = some jb)
    (hq : queueCount j s'.queue = queueCount j s.queue)
    (ht : tasksFor j s'.tasks = tasksFor j s.tasks) : JInv R j W s' := by
  unfold JInv at *
  rw [hj, hq, ht]
  rw [hjs] at hinv
  exact hinv

theorem jinv_congr_fields {R j W : Nat} {s : EngineState}
    {jobs' : List (Nat × Job)} {q' : List Nat} {b' : Bool} {now' : Nat}
    {ts' : List (Nat × Phase)}
    (hinv : JInv R j W s)
    (hj : lookupJob j jobs' = lookupJob j s.jobs)
    (hq : queueCount j q' = queueCount j s.queue)
    (ht : tasksFor j ts' = tasksFor j s.tasks) :
    JInv R j W { jobs := jobs', queue := q', isProcessing := b',
                 nextId := s.nextId, now := now', tasks := ts' } := by
  unfold JInv
  show JInvAt R j W (lookupJob j jobs') (queueCount j q') (tasksFor j ts')
    s.nextId
  rw [hj, hq, ht]
  exact hinv

theorem jinv_no_task {R j W : Nat} {s : EngineState} {ph : Phase}
    (hinv : JInv R j W s) (hm : (j, ph) ∈ s.tasks)
    (hw : ph ≠ Phase.phWork) : False := by
  unfold JInv at hinv
  cases hlk : lookupJob j s.jobs with
  | none =>
      rw [hlk] at hinv
      exact not_mem_of_tasksFor_nil hinv.2.2.2 hm
  | some jb =>
      rw [hlk] at hinv
      rcases hinv with hp | hr | hf
      · exact not_mem_of_tasksFor_nil hp.2.2.2.2 hm
      · exact hw (eq_phase_of_tasksFor_single hr.2.2.2.2 hm)
      · exact not_mem_of_tasksFor_nil hf.2.2.2.2.2 hm

theorem step_workOk_other {cfg : Config} {s : EngineState} {id : Nat} {r : String}
    {job : Job} (h : (id, Phase.phWork) ∈ s.tasks)
    (hl : lookupJob id s.jobs = some job)
    (h1 : job.type ≠ JobTypeCLONE) (h2 : job.type ≠ JobTypeANALYZE) :
    step cfg (Label.lworkOk id r) s = none := by
  simp [step, h, hl, h1, h2]

theorem jinv_removeTask_ne {R j W id : Nat} {ph : Phase} {s : EngineState}
    (hne : id ≠ j) (hinv : JInv R j W s) :
    JInv R j W { s with tasks := removeTask id ph s.tasks } := by
  refine jinv_congr _ hinv rfl rfl ?_ rfl
  simp only [removeTask]
  exact tasksFor_erase_ne hne ph _

theorem jinv_tasks_remove_add_ne {R j W id : Nat} {ph ph' : Phase}
    {s : EngineState} (hne : id ≠ j) (hinv : JInv R j W s) :
    JInv R j W { s with tasks := removeTask id ph s.tasks ++ [(id, ph')] } := by
  refine jinv_congr _ hinv rfl rfl ?_ rfl
  simp only [removeTask]
  rw [tasksFor_append, tasksFor_singleton_ne hne, List.append_nil]
  exact tasksFor_erase_ne hne ph _

theorem applyFailure_eq (cfg : Config) (id : Nat) (job : Job) (e : String)
    (ts : List (Nat × Phase)) (s : EngineState) :
    applyFailure cfg id job e ts s =
      { s with
        jobs := updateJob id
          (fun _ => (handleFailure cfg.retryAttempts s.now e job).fst) s.jobs,
        queue := if (handleFailure cfg.retryAttempts s.now e job).snd
                 then s.queue ++ [id] else s.queue,
        tasks := if job.data.projectId.isSome
                 then ts ++ [(id, Phase.phCatchTail)] else ts } := rfl

theorem jinv_applyFailure_ne {cfg : Config} {s : EngineState} {j id W : Nat}
    {job : Job} {e : String} {ph : Phase}
    (hne : id ≠ j) (hinv : JInv cfg.retryAttempts j W s) :
    JInv cfg.retryAttempts j W
      (applyFailure cfg id job e (removeTask id ph s.tasks) s) := by
  rw [applyFailure_eq]
  refine jinv_congr _ hinv ?_ ?_ ?_ rfl
  · show lookupJob j (updateJob id
        (fun _ => (handleFailure cfg.retryAttempts s.now e job).fst) s.jobs) =
      lookupJob j s.jobs
    exact lookupJob_updateJob_ne hne _ _
  · show queueCount j (if (handleFailure cfg.retryAttempts s.now e job).snd
        then s.queue ++ [id] else s.queue) = queueCount j s.queue
    cases hb : (handleFailure cfg.retryAttempts s.now e job).snd
    · simp
    · simp [queueCount_append, queueCount_singleton_ne hne]
  · show tasksFor j (if job.data.projectId.isSome
        then removeTask id ph s.tasks ++ [(id, Phase.phCatchTail)]
        else removeTask id ph s.tasks) = tasksFor j s.tasks
    by_cases hp : job.data.projectId.isSome
    · rw [if_pos hp]
      simp only [removeTask]
      rw [tasksFor_append, tasksFor_singleton_ne hne, List.append_nil]
      exact tasksFor_erase_ne hne ph _
    · rw [if_neg hp]
      simp only [removeTask]
      exact tasksFor_erase_ne hne ph _

theorem jinv_step {cfg : Config} {l : Label} {s s' : EngineState} {j W : Nat}
    (h : step cfg l s = some s') (hwf : KeysWF s) (hg : GoodJobs s)
    (hgl : goodLabel l) (hnok : noWorkOkFor j l) (hnr : notReap l)
    (hinv : JInv cfg.retryAttempts j W s) :
    JInv cfg.retryAttempts j (W + (if isWorkLabelFor j l then 1 else 0)) s' := by
  cases l with
  | lsubmit ty d =>
      rw [step_submit] at h
      injection h with h2
      subst h2
      show JInv cfg.retryAttempts j W _
      unfold JInv at hinv ⊢
      show JInvAt cfg.retryAttempts j W
        (lookupJob j (s.jobs ++ [(s.nextId, newJob ty d s)]))
        (queueCount j (s.queue ++ [s.nextId])) (tasksFor j s.tasks)
        (s.nextId + 1)
      cases hlk : lookupJob j s.jobs with
      | some jb =>
          rw [lookupJob_append_left hlk]
          rw [hlk] at hinv
          have hne : s.nextId ≠ j := by
            have := hwf.1 j (mem_keys_of_lookupJob_some hlk)
            omega
          rw [queueCount_append, queueCount_singleton_ne hne, Nat.add_zero]
          simp only [JInvAt] at hinv ⊢
          exact hinv
      | none =>
          rw [hlk] at hinv
          simp only [JInvAt] at hinv
          obtain ⟨hnle, hW0, hq0, ht0⟩ := hinv
          by_cases hje : j = s.nextId
          · subst hje
            rw [lookupJob_append_right hlk, lookupJob_cons, if_pos rfl]
            rw [queueCount_append, queueCount_singleton_self, hq0]
            simp only [JInvAt]
            left
            subst hW0
            exact ⟨rfl, rfl, Nat.zero_le _, trivial, ht0⟩
          · have hne : s.nextId ≠ j := fun he => hje he.symm
            rw [lookupJob_append_right hlk, lookupJob_cons, if_neg hne,
                lookupJob_nil]
            rw [queueCount_append, queueCount_singleton_ne hne, Nat.add_zero]
            simp only [JInvAt]
            refine ⟨?_, hW0, hq0, ht0⟩
            omega
  | lloop =>
      show JInv cfg.retryAttempts j W s'
      by_cases hip : s.isProcessing = false
      · rw [step_loop_idle hip] at h
        exact Option.noConfusion h
      · have hip' : s.isProcessing = true := by
          revert hip
          cases s.isProcessing <;> simp
        cases hqe : s.queue with
        | nil =>
            rw [step_loop_exit hip' hqe] at h
            injection h with h2
            subst h2
            exact jinv_congr _ hinv rfl rfl rfl rfl
        | cons jobId rest =>
            by_cases hcap : cfg.maxConcurrent ≤ runningCount s.jobs
            · rw [step_loop_wait hip' hqe hcap] at h
              injection h with h2
              subst h2
              exact jinv_congr _ hinv rfl rfl rfl rfl
            · cases hlk : lookupJob jobId s.jobs with
              | none =>
                  rw [step_loop_stale hip' hqe hcap hlk] at h
                  injection h with h2
                  subst h2
                  have hne : jobId ≠ j := by
                    intro he
                    subst he
                    unfold JInv at hinv
                    rw [hlk] at hinv
                    simp only [JInvAt] at hinv
                    obtain ⟨-, -, hq, -⟩ := hinv
                    rw [hqe, queueCount_cons_self] at hq
                    omega
                  refine jinv_congr _ hinv rfl ?_ rfl rfl
                  rw [hqe, queueCount_cons_ne hne]
              | some job =>
                  by_cases hst : job.status ≠ JobStatus.pending
                  · rw [step_loop_skip hip' hqe hcap hlk hst] at h
                    injection h with h2
                    subst h2
                    have hne : jobId ≠ j := by
                      intro he
                      subst he
                      unfold JInv at hinv
                      rw [hlk] at hinv
                      simp only [JInvAt] at hinv
                      rcases hinv with hp | hr | hf
                      · exact hst hp.1
                      · obtain ⟨-, -, -, hq, -⟩ := hr
                        rw [hqe, queueCount_cons_self] at hq
                        omega
                      · obtain ⟨-, -, -, -, hq, -⟩ := hf
                        rw [hqe, queueCount_cons_self] at hq
                        omega
                    refine jinv_congr _ hinv rfl ?_ rfl rfl
                    rw [hqe, queueCount_cons_ne hne]
                  · have hsp : job.status = JobStatus.pending := of_not_not hst
                    have hgood : (job.type = JobTypeCLONE ∨
                        job.type = JobTypeANALYZE) ∧
                        job.data.projectId = none :=
                      hg _ (mem_of_lookupJob_some hlk)
                    have hasync : hasAsyncWork job.type = true := by
                      rcases hgood.1 with ht' | ht' <;>
                        simp [hasAsyncWork, ht']
                    have ha : (hasAsyncWork job.type ||
                        job.data.projectId.isSome) = true := by
                      rw [hasync]
                      rfl
                    rw [step_loop_dispatch hip' hqe hcap hlk hsp ha] at h
                    injection h with h2
                    subst h2
                    have hphp : initialPhase job.data = Phase.phWork := by
                      simp [initialPhase, hgood.2]
                    by_cases hje : jobId = j
                    · subst hje
                      unfold JInv at hinv ⊢
                      rw [hlk] at hinv
                      simp only [JInvAt] at hinv
                      show JInvAt cfg.retryAttempts jobId W
                        (lookupJob jobId (updateJob jobId
                          (fun _ =>
                            { id := job.id, type := job.type,
                              data := job.data,
                              status := JobStatus.running,
                              createdAt := job.createdAt,
                              startedAt := some s.now,
                              completedAt := job.completedAt,
                              error := job.error,
                              retryCount := job.retryCount,
                              result := job.result }) s.jobs))
                        (queueCount jobId rest)
                        (tasksFor jobId (s.tasks ++
                          [(jobId, initialPhase job.data)]))
                        s.nextId
                      rw [lookupJob_updateJob_self, hlk, Option.map_some']
                      rcases hinv with hp | hr | hf
                      · obtain ⟨-, hrc, hWR, hq1, ht0⟩ := hp
                        simp only [JInvAt]
                        right; left
                        refine ⟨by trivial, hrc, hWR, ?_, ?_⟩
                        · rw [hqe, queueCount_cons_self] at hq1
                          omega
                        · rw [hphp, tasksFor_append, ht0,
                              tasksFor_cons_self, tasksFor_nil,
                              List.nil_append]
                      · obtain ⟨-, -, -, hq0, -⟩ := hr
                        rw [hqe, queueCount_cons_self] at hq0
                        omega
                      · obtain ⟨-, -, -, -, hq0, -⟩ := hf
                        rw [hqe, queueCount_cons_self] at hq0
                        omega
                    · have hne : jobId ≠ j := hje
                      refine jinv_congr_fields hinv ?_ ?_ ?_
                      · exact lookupJob_updateJob_ne hne _ _
                      · rw [hqe, queueCount_cons_ne hne]
                      · rw [tasksFor_append, tasksFor_singleton_ne hne,
                            List.append_nil]
  | lstartLogOk id =>
      show JInv cfg.retryAttempts j W s'
      by_cases hmem : (id, Phase.phStartLog) ∈ s.tasks
      · by_cases hje : id = j
        · subst hje
          exact absurd (jinv_no_task hinv hmem (by simp)) (fun hf => hf)
        · cases hlk : lookupJob id s.jobs with
          | none =>
              rw [step_startLogOk_orphan hmem hlk] at h
              injection h with h2
              subst h2
              exact jinv_removeTask_ne hje hinv
          | some job =>
              by_cases hasy : hasAsyncWork job.type = true
              · rw [step_startLogOk_async hmem hlk hasy] at h
                injection h with h2
                subst h2
                exact jinv_tasks_remove_add_ne hje hinv
              · rw [step_startLogOk_sync hmem hlk
                    (Bool.not_eq_true _ ▸ hasy)] at h
                injection h with h2
                subst h2
                exact jinv_applyFailure_ne hje hinv
      · rw [step_startLogOk_none hmem] at h
        exact Option.noConfusion h
  | lstartLogThrow id e =>
      show JInv cfg.retryAttempts j W s'
      by_cases hmem : (id, Phase.phStartLog) ∈ s.tasks
      · by_cases hje : id = j
        · subst hje
          exact absurd (jinv_no_task hinv hmem (by simp)) (fun hf => hf)
        · cases hlk : lookupJob id s.jobs with
          | none =>
              rw [step_startLogThrow_orphan hmem hlk] at h
              injection h with h2
              subst h2
              exact jinv_removeTask_ne hje hinv
          | some job =>
              rw [step_startLogThrow_some hmem hlk] at h
              injection h with h2
              subst h2
              exact jinv_applyFailure_ne hje hinv
      · rw [step_startLogThrow_none hmem] at h
        exact Option.noConfusion h
  | lworkOk id r =>
      have hne : id ≠ j := hnok
      have hred : W + (if isWorkLabelFor j (Label.lworkOk id r) then 1 else 0)
          = W := by
        simp [isWorkLabelFor, hne]
      rw [hred]
      by_cases hmem : (id, Phase.phWork) ∈ s.tasks
      · cases hlk : lookupJob id s.jobs with
        | none =>
            rw [step_workOk_orphan hmem hlk] at h
            injection h with h2
            subst h2
            exact jinv_removeTask_ne hne hinv
        | some job =>
            by_cases htc : job.type = JobTypeCLONE
            · rw [step_workOk_clone hmem hlk htc] at h
              injection h with h2
              subst h2
              unfold JInv at hinv ⊢
              show JInvAt cfg.retryAttempts j W
                (lookupJob j (s.jobs ++
                  [(s.nextId, newJob JobTypeANALYZE
                     { projectId := job.data.projectId, projectPath := some r }
                     { s with tasks := removeTask id Phase.phWork s.tasks })]))
                (queueCount j (s.queue ++ [s.nextId]))
                (tasksFor j (removeTask id Phase.phWork s.tasks ++
                  [(id, Phase.phCompleting r)]))
                (s.nextId + 1)
              have htf : tasksFor j (removeTask id Phase.phWork s.tasks ++
                  [(id, Phase.phCompleting r)]) = tasksFor j s.tasks := by
                simp only [removeTask]
                rw [tasksFor_append, tasksFor_singleton_ne hne,
                    List.append_nil]
                exact tasksFor_erase_ne hne _ _
              rw [htf]
              cases hlkj : lookupJob j s.jobs with
              | some jb =>
                  rw [lookupJob_append_left hlkj]
                  rw [hlkj] at hinv
                  have hne2 : s.nextId ≠ j := by
                    have := hwf.1 j (mem_keys_of_lookupJob_some hlkj)
                    omega
                  rw [queueCount_append, queueCount_singleton_ne hne2,
                      Nat.add_zero]
                  simp only [JInvAt] at hinv ⊢
                  exact hinv
              | none =>
                  rw [hlkj] at hinv
                  simp only [JInvAt] at hinv
                  obtain ⟨hnle, hW0, hq0, ht0⟩ := hinv
                  by_cases hjn : j = s.nextId
                  · subst hjn
                    rw [lookupJob_append_right hlkj, lookupJob_cons,
                        if_pos rfl]
                    rw [queueCount_append, queueCount_singleton_self, hq0]
                    simp only [JInvAt]
                    left
                    subst hW0
                    exact ⟨rfl, rfl, Nat.zero_le _, trivial, ht0⟩
                  · have hne2 : s.nextId ≠ j := fun he => hjn he.symm
                    rw [lookupJob_append_right hlkj, lookupJob_cons,
                        if_neg hne2, lookupJob_nil]
                    rw [queueCount_append, queueCount_singleton_ne hne2,
                        Nat.add_zero]
                    simp only [JInvAt]
                    refine ⟨?_, hW0, hq0, ht0⟩
                    omega
            · by_cases hta : job.type = JobTypeANALYZE
              · rw [step_workOk_analyze hmem hlk hta] at h
                injection h with h2
                subst h2
                exact jinv_tasks_remove_add_ne hne hinv
              · rw [step_workOk_other hmem hlk htc hta] at h
                exact Option.noConfusion h
      · rw [step_workOk_none hmem] at h
        exact Option.noConfusion h
  | lworkErr id e =>
      by_cases hmem : (id, Phase.phWork) ∈ s.tasks
      · by_cases hje : id = j
        · subst hje
          have hred : W + (if isWorkLabelFor id (Label.lworkErr id e)
              then 1 else 0) = W + 1 := by
            simp [isWorkLabelFor]
          rw [hred]
          unfold JInv at hinv
          cases hlk : lookupJob id s.jobs with
          | none =>
              rw [hlk] at hinv
              simp only [JInvAt] at hinv
              exact absurd hmem (not_mem_of_tasksFor_nil hinv.2.2.2)
          | some jb =>
              rw [hlk] at hinv
              simp only [JInvAt] at hinv
              rcases hinv with hp | hr | hf
              · exact absurd hmem (not_mem_of_tasksFor_nil hp.2.2.2.2)
              · obtain ⟨hst, hrc, hWR, hq0, htf⟩ := hr
                rw [step_workErr_some hmem hlk] at h
                injection h with h2
                subst h2
                have hpid : jb.data.projectId = none :=
                  (hg _ (mem_of_lookupJob_some hlk)).2
                rw [applyFailure_eq]
                unfold JInv
                show JInvAt cfg.retryAttempts id (W + 1)
                  (lookupJob id (updateJob id
                    (fun _ => (handleFailure cfg.retryAttempts s.now e jb).fst)
                    s.jobs))
                  (queueCount id (if (handleFailure cfg.retryAttempts s.now
                      e jb).snd then s.queue ++ [id] else s.queue))
                  (tasksFor id (if jb.data.projectId.isSome
                    then removeTask id Phase.phWork s.tasks ++
                      [(id, Phase.phCatchTail)]
                    else removeTask id Phase.phWork s.tasks))
                  s.nextId
                have hpids : jb.data.projectId.isSome = false := by
                  rw [hpid]
                  rfl
                rw [hpids]
                have htf' : tasksFor id (removeTask id Phase.phWork s.tasks)
                    = [] := by
                  simp only [removeTask]
                  rw [tasksFor_erase_self, htf, List.erase_cons_head]
                rw [lookupJob_updateJob_self, hlk, Option.map_some']
                simp only [Bool.false_eq_true, if_neg, ite_false]
                by_cases hlt : jb.retryCount < cfg.retryAttempts
                · have hfe : handleFailure cfg.retryAttempts s.now e jb =
                      ({ jb with error := some e,
                                 retryCount := jb.retryCount + 1,
                                 status := JobStatus.pending }, true) := by
                    simp [handleFailure, hlt]
                  rw [hfe]
                  simp only [JInvAt]
                  left
                  refine ⟨by trivial, ?_, ?_, ?_, htf'⟩
                  · simp [hrc]
                  · omega
                  · simp [queueCount_append, queueCount_singleton_self, hq0]
                · have hfe : handleFailure cfg.retryAttempts s.now e jb =
                      ({ jb with error := some e,
                                 status := JobStatus.failed,
                                 completedAt := some s.now }, false) := by
                    simp [handleFailure, hlt]
                  rw [hfe]
                  simp only [JInvAt]
                  right
                  right
                  refine ⟨by trivial, ?_, ?_, ?_, ?_, htf'⟩
                  · omega
                  · omega
                  · exact fun hc => Option.noConfusion hc
                  · simp [hq0]
              · exact absurd hmem (not_mem_of_tasksFor_nil hf.2.2.2.2.2)
        · have hred : W + (if isWorkLabelFor j (Label.lworkErr id e)
              then 1 else 0) = W := by
            simp [isWorkLabelFor, hje]
          rw [hred]
          cases hlk : lookupJob id s.jobs with
          | none =>
              rw [step_workErr_orphan hmem hlk] at h
              injection h with h2
              subst h2
              exact jinv_removeTask_ne hje hinv
          | some job =>
              rw [step_workErr_some hmem hlk] at h
              injection h with h2
              subst h2
              exact jinv_applyFailure_ne hje hinv
      · rw [step_workErr_none hmem] at h
        exact Option.noConfusion h
  | lcomplete id r =>
      show JInv cfg.retryAttempts j W s'
      by_cases hmem : (id, Phase.phCompleting r) ∈ s.tasks
      · by_cases hje : id = j
        · subst hje
          exact absurd (jinv_no_task hinv hmem (by simp)) (fun hf => hf)
        · cases hlk : lookupJob id s.jobs with
          | none =>
              rw [step_complete_orphan hmem hlk] at h
              injection h with h2
              subst h2
              exact jinv_removeTask_ne hje hinv
          | some job =>
              rw [step_complete_some hmem hlk] at h
              injection h with h2
              subst h2
              refine jinv_congr_fields hinv ?_ rfl ?_
              · exact lookupJob_updateJob_ne hje _ _
              · show tasksFor j (if job.data.projectId.isSome
                    then removeTask id (Phase.phCompleting r) s.tasks ++
                      [(id, Phase.phDoneLog)]
                    else removeTask id (Phase.phCompleting r) s.tasks) =
                  tasksFor j s.tasks
                by_cases hp : job.data.projectId.isSome
                · rw [if_pos hp]
                  simp only [removeTask]
                  rw [tasksFor_append, tasksFor_singleton_ne hje,
                      List.append_nil]
                  exact tasksFor_erase_ne hje _ _
                · rw [if_neg hp]
                  simp only [removeTask]
                  exact tasksFor_erase_ne hje _ _
      · rw [step_complete_none hmem] at h
        exact Option.noConfusion h
  | ldoneLogOk id =>
      show JInv cfg.retryAttempts j W s'
      by_cases hmem : (id, Phase.phDoneLog) ∈ s.tasks
      · by_cases hje : id = j
        · subst hje
          exact absurd (jinv_no_task hinv hmem (by simp)) (fun hf => hf)
        · rw [step_doneLogOk_some hmem] at h
          injection h with h2
          subst h2
          exact jinv_removeTask_ne hje hinv
      · rw [step_doneLogOk_none hmem] at h
        exact Option.noConfusion h
  | ldoneLogThrow id e =>
      show JInv cfg.retryAttempts j W s'
      by_cases hmem : (id, Phase.phDoneLog) ∈ s.tasks
      · by_cases hje : id = j
        · subst hje
          exact absurd (jinv_no_task hinv hmem (by simp)) (fun hf => hf)
        · cases hlk : lookupJob id s.jobs with
          | none =>
              rw [step_doneLogThrow_orphan hmem hlk] at h
              injection h with h2
              subst h2
              exact jinv_removeTask_ne hje hinv
          | some job =>
              rw [step_doneLogThrow_some hmem hlk] at h
              injection h with h2
              subst h2
              exact jinv_applyFailure_ne hje hinv
      · rw [step_doneLogThrow_none hmem] at h
        exact Option.noConfusion h
  | lcatchTail id =>
      show JInv cfg.retryAttempts j W s'
      by_cases hmem : (id, Phase.phCatchTail) ∈ s.tasks
      · by_cases hje : id = j
        · subst hje
          exact absurd (jinv_no_task hinv hmem (by simp)) (fun hf => hf)
        · rw [step_catchTail_some hmem] at h
          injection h with h2
          subst h2
          exact jinv_removeTask_ne hje hinv
      · rw [step_catchTail_none hmem] at h
        exact Option.noConfusion h
  | ltick =>
      rw [step_tick] at h
      injection h with h2
      subst h2
      exact jinv_congr _ hinv rfl rfl rfl rfl
  | lreap => exact hnr.elim

instance (l : Label) : Decidable (goodLabel l) := by
  cases l <;> simp only [goodLabel] <;> infer_instance

instance (j : Nat) (l : Label) : Decidable (noWorkOkFor j l) := by
  cases l <;> simp only [noWorkOkFor] <;> infer_instance

instance (l : Label) : Decidable (notReap l) := by
  cases l <;> simp only [notReap] <;> infer_instance

theorem runTrace_jinv {cfg : Config} {ls : List Label} {s s' : EngineState}
    {j W : Nat} (h : runTrace cfg ls s = some s')
    (hwf : KeysWF s) (hg : GoodJobs s)
    (hgl : ∀ l ∈ ls, goodLabel l) (hnok : ∀ l ∈ ls, noWorkOkFor j l)
    (hnr : ∀ l ∈ ls, notReap l)
    (hinv : JInv cfg.retryAttempts j W s) :
    JInv cfg.retryAttempts j (W + workCount j ls) s' := by
  induction ls generalizing s W with
  | nil =>
      simp only [runTrace] at h
      injection h with h2
      subst h2
      simpa [workCount_nil] using hinv
  | cons l rest ih =>
      simp only [runTrace] at h
      cases hstep : step cfg l s with
      | none =>
          rw [hstep] at h
          exact Option.noConfusion h
      | some s1 =>
          rw [hstep] at h
          have hmem : l ∈ l :: rest := List.mem_cons_self l rest
          have h1 := jinv_step hstep hwf hg (hgl l hmem) (hnok l hmem)
            (hnr l hmem) hinv
          have h2 := ih h (keysWF_step hstep hwf)
            (goodJobs_step hstep hg (hgl l hmem))
            (fun l' hl' => hgl l' (List.mem_cons_of_mem _ hl'))
            (fun l' hl' => hnok l' (List.mem_cons_of_mem _ hl'))
            (fun l' hl' => hnr l' (List.mem_cons_of_mem _ hl')) h1
          rw [workCount_cons, ← Nat.add_assoc]
          exact h2

theorem goodJobs_init : GoodJobs initState :=
  fun p hp => absurd hp (List.not_mem_nil p)

/-- The run of a single always-failing CLONE job with an empty payload: it
is submitted, dispatched (the queue drains and the loop exits), and then its
work function rejects once. -/
def c2StallTrace : List Label :=
  [Label.lsubmit JobTypeCLONE {}, Label.lloop, Label.lloop,
   Label.lworkErr 0 "clone failed"]

/-- The state that run reaches. -/
def c2StallState : EngineState :=
  (runTrace defaultConfig c2StallTrace initState).getD initState

/-- **C2, counterexample**: with the default configuration
(`maxRetries = 2`), a job whose work function fails on every attempt does
NOT reach `maxRetries + 1 = 3` executions and state FAILED: after one
execution the catch block re-enqueues it, but nothing restarts the exited
scheduler loop, so the engine is quiescent (no loop running, no continuation
in flight, `lloop` not even enabled) with the job PENDING at
`retryCount = 1` and one stale queue entry. -/
theorem claim_c2_retry_exhaustion_cex :
    runTrace defaultConfig c2StallTrace initState = some c2StallState ∧
    workCount 0 c2StallTrace = 1 ∧
    defaultConfig.retryAttempts + 1 = 3 ∧
    (getJobStatus 0 c2StallState).map JobView.status =
      some JobStatus.pending ∧
    (getJobStatus 0 c2StallState).map JobView.retryCount = some 1 ∧
    c2StallState.queue = [0] ∧
    c2StallState.isProcessing = false ∧
    c2StallState.tasks = [] ∧
    step defaultConfig Label.lloop c2StallState = none := by
  exact ⟨rfl, rfl, rfl, rfl, rfl, rfl, rfl, rfl, rfl⟩

/-- **C2 (amended)**: the retry-exhaustion arithmetic holds as a safety
property of every run: starting from the initial state, if job `j`'s work
function never succeeds (the trace has no successful work step for `j`),
every submission carries a registered kind and a payload without
`projectId`, and the reaper does not run, then whenever `j` is found in
state FAILED its work function was executed exactly `maxRetries + 1` times,
its `retryCount` equals `maxRetries`, and its `completedAt` is set.  The
original claim's eventuality part is false on the code (see the
counterexample): a solo always-failing job stalls PENDING after a single
execution, because the retry path's re-enqueue does not restart the
scheduler loop once it has exited. -/
theorem claim_c2_retry_exhaustion (cfg : Config) (ls : List Label)
    (s : EngineState) (j : Nat) (jb : Job)
    (h : runTrace cfg ls initState = some s)
    (hgl : ∀ l ∈ ls, goodLabel l)
    (hnok : ∀ l ∈ ls, noWorkOkFor j l)
    (hnr : ∀ l ∈ ls, notReap l)
    (hlk : lookupJob j s.jobs = some jb)
    (hfail : jb.status = JobStatus.failed) :
    workCount j ls = cfg.retryAttempts + 1 ∧
      jb.retryCount = cfg.retryAttempts ∧ jb.completedAt ≠ none := by
  have hinv0 : JInv cfg.retryAttempts j 0 initState := by
    unfold JInv
    show JInvAt cfg.retryAttempts j 0 (lookupJob j []) (queueCount j [])
      (tasksFor j []) 0
    rw [lookupJob_nil]
    simp only [JInvAt]
    refine ⟨Nat.zero_le _, by trivial, by trivial, by trivial⟩
  have hinv := runTrace_jinv h keysWF_init goodJobs_init hgl hnok hnr hinv0
  unfold JInv at hinv
  rw [hlk] at hinv
  simp only [JInvAt] at hinv
  rcases hinv with hp | hr | hf
  · rw [hfail] at hp
    exact absurd hp.1 (by decide)
  · rw [hfail] at hr
    exact absurd hr.1 (by decide)
  · obtain ⟨-, hrc, hW, hca, -, -⟩ := hf
    rw [Nat.zero_add] at hW
    exact ⟨hW, hrc, hca⟩

/-- A driven run in which the always-failing job 0 does reach FAILED: a
second submission keeps the scheduler loop alive so the re-enqueued job is
dispatched again (three executions in total for `maxRetries = 2`). -/
def c2WitnessTrace : List Label :=
  [Label.lsubmit JobTypeCLONE {}, Label.lloop, Label.lloop,
   Label.lworkErr 0 "clone failed",
   Label.lsubmit JobTypeCLONE {}, Label.lloop,
   Label.lworkErr 0 "clone failed",
   Label.lloop, Label.lloop,
   Label.lworkErr 0 "clone failed"]

/-- The state that run reaches. -/
def c2WitnessState : EngineState :=
  (runTrace defaultConfig c2WitnessTrace initState).getD initState

/-- Job 0's record in that state. -/
def c2WitnessJob : Job :=
  (lookupJob 0 c2WitnessState.jobs).getD (newJob "" {} initState)

theorem claim_c2_retry_exhaustion_witness :
    workCount 0 c2WitnessTrace = defaultConfig.retryAttempts + 1 ∧
      c2WitnessJob.retryCount = defaultConfig.retryAttempts ∧
      c2WitnessJob.completedAt ≠ none :=
  claim_c2_retry_exhaustion defaultConfig c2WitnessTrace c2WitnessState 0
    c2WitnessJob rfl (by decide) (by decide) (by decide) rfl rfl

/-- The engine state after submitting one job of an unregistered kind with
no `projectId` and dispatching it `k` times: each dispatch throws
synchronously in `processJob`'s switch and runs the whole catch block inside
the loop iteration, so the job is PENDING again with `retryCount = k` and
re-enqueued. -/
def c3Job (ty : String) (d : JobData) (k : Nat) : Job :=
  { id := 0, type := ty, data := d, status := JobStatus.pending,
    createdAt := 0,
    startedAt := if k = 0 then none else some 0,
    completedAt := none,
    error := if k = 0 then none else some ("Unknown job type: " ++ ty),
    retryCount := k, result := none }

/-- The queue/flag/task shape of that run after `k` synchronous failed
dispatches. -/
def c3State (ty : String) (d : JobData) (k : Nat) : EngineState :=
  { jobs := [(0, c3Job ty d k)],
    queue := [0], isProcessing := true, nextId := 1, now := 0, tasks := [] }

/-- The state once the unregistered-kind job has exhausted its retries and
the loop has exited. -/
def c3EndState (ty : String) (d : JobData) (R : Nat) : EngineState :=
  { jobs := [(0,
      { id := 0, type := ty, data := d, status := JobStatus.failed,
        createdAt := 0, startedAt := some 0, completedAt := some 0,
        error := some ("Unknown job type: " ++ ty),
        retryCount := R, result := none })],
    queue := [], isProcessing := false, nextId := 1, now := 0, tasks := [] }

theorem c3_submit (cfg : Config) (ty : String) (d : JobData) :
    step cfg (Label.lsubmit ty d) initState = some (c3State ty d 0) := rfl

theorem c3_hasAsync_false {ty : String} (h1 : ty ≠ JobTypeCLONE)
    (h2 : ty ≠ JobTypeANALYZE) : hasAsyncWork ty = false := by
  simp [hasAsyncWork, h1, h2]

theorem c3_step_retry (cfg : Config) (ty : String) (d : JobData) (k : Nat)
    (hC : 1 ≤ cfg.maxConcurrent) (h1 : ty ≠ JobTypeCLONE)
    (h2 : ty ≠ JobTypeANALYZE) (h3 : ty ≠ JobTypeBUILD)
    (hd : d.projectId = none) (hk : k < cfg.retryAttempts) :
    step cfg Label.lloop (c3State ty d k) = some (c3State ty d (k + 1)) := by
  have hrun : runningCount (c3State ty d k).jobs = 0 := by
    simp [c3State, c3Job, runningCount]
  have hlk : lookupJob 0 (c3State ty d k).jobs = some (c3Job ty d k) := by
    simp [c3State, lookupJob, List.find?]
  rw [@step_loop_dispatch_sync cfg (c3State ty d k) 0 [] (c3Job ty d k)
    rfl rfl (by rw [hrun]; omega) hlk rfl
    (by simp [c3Job, c3_hasAsync_false h1 h2, hd])]
  congr 1
  simp only [c3State, c3Job, handleFailure, syncThrowMessage, updateJob]
  simp [hk, h3, Nat.succ_ne_zero]

theorem c3_step_fail (cfg : Config) (ty : String) (d : JobData)
    (hC : 1 ≤ cfg.maxConcurrent) (h1 : ty ≠ JobTypeCLONE)
    (h2 : ty ≠ JobTypeANALYZE) (h3 : ty ≠ JobTypeBUILD)
    (hd : d.projectId = none) :
    step cfg Label.lloop (c3State ty d cfg.retryAttempts) =
      some { c3EndState ty d cfg.retryAttempts with isProcessing := true } := by
  have hrun : runningCount (c3State ty d cfg.retryAttempts).jobs = 0 := by
    simp [c3State, c3Job, runningCount]
  have hlk : lookupJob 0 (c3State ty d cfg.retryAttempts).jobs =
      some (c3Job ty d cfg.retryAttempts) := by
    simp [c3State, lookupJob, List.find?]
  rw [@step_loop_dispatch_sync cfg (c3State ty d cfg.retryAttempts) 0 []
    (c3Job ty d cfg.retryAttempts) rfl rfl
    (by rw [hrun]; omega) hlk rfl
    (by simp [c3Job, c3_hasAsync_false h1 h2, hd])]
  congr 1
  simp only [c3State, c3Job, c3EndState, handleFailure, syncThrowMessage,
    updateJob]
  simp [h3]

theorem c3_step_exit (cfg : Config) (ty : String) (d : JobData) (R : Nat) :
    step cfg Label.lloop
        { c3EndState ty d R with isProcessing := true } =
      some (c3EndState ty d R) := by
  rw [step_loop_exit rfl rfl]
  rfl

theorem c3_run_loops (cfg : Config) (ty : String) (d : JobData)
    (hC : 1 ≤ cfg.maxConcurrent) (h1 : ty ≠ JobTypeCLONE)
    (h2 : ty ≠ JobTypeANALYZE) (h3 : ty ≠ JobTypeBUILD)
    (hd : d.projectId = none) :
    ∀ n k, k + n = cfg.retryAttempts →
      runTrace cfg (List.replicate (n + 2) Label.lloop) (c3State ty d k) =
        some (c3EndState ty d cfg.retryAttempts) := by
  intro n
  induction n with
  | zero =>
      intro k hk
      rw [Nat.add_zero] at hk
      subst hk
      show runTrace cfg [Label.lloop, Label.lloop]
        (c3State ty d cfg.retryAttempts) = _
      simp only [runTrace, c3_step_fail cfg ty d hC h1 h2 h3 hd,
        c3_step_exit]
  | succ m ih =>
      intro k hk
      have hrep : List.replicate (m + 1 + 2) Label.lloop =
          Label.lloop :: List.replicate (m + 2) Label.lloop := by
        rw [show m + 1 + 2 = (m + 2) + 1 by omega, List.replicate_succ]
      rw [hrep]
      simp only [runTrace]
      rw [c3_step_retry cfg ty d k hC h1 h2 h3 hd (by omega)]
      exact ih (k + 1) (by omega)

/-- **C3, counterexample**: submitting a kind with no registered work
function does not fail immediately and the job IS retried: with the default
configuration, `addJob "bogus"` returns job id 0 with a normally-created
PENDING job, and processing it leaves a FAILED job with `retryCount = 2`
(two retries consumed by the retry policy) and the unknown-kind error as its
recorded failure. -/
theorem claim_c3_unknown_kind_cex :
    (addJob "bogus" {} initState).fst = 0 ∧
    (getJobStatus 0 (addJob "bogus" {} initState).snd).map JobView.status =
      some JobStatus.pending ∧
    runTrace defaultConfig
      (Label.lsubmit "bogus" {} :: List.replicate 4 Label.lloop) initState =
      some (c3EndState "bogus" {} 2) ∧
    (getJobStatus 0 (c3EndState "bogus" {} 2)).map JobView.retryCount =
      some 2 ∧
    (getJobStatus 0 (c3EndState "bogus" {} 2)).map JobView.status =
      some JobStatus.failed := by
  exact ⟨rfl, rfl, rfl, rfl, rfl⟩

/-- **C3 (amended)**: `addJob` accepts a kind absent from the registry and
returns a job id for a normally-created PENDING job — the submission does
not fail.  The unknown-kind error is raised only when the job executes
(`Unknown job type: <kind>`, thrown synchronously in `processJob`'s switch)
and is handled by the ordinary retry policy, not rejected immediately: the
job is retried `maxRetries` times and then FAILED with
`retryCount = maxRetries`, its `error` holding the unknown-kind message.
Stated for every configuration with a positive concurrency ceiling and
every unregistered kind with a `projectId`-free payload. -/
theorem claim_c3_unknown_kind (cfg : Config) (ty : String) (d : JobData)
    (hC : 1 ≤ cfg.maxConcurrent) (h1 : ty ≠ JobTypeCLONE)
    (h2 : ty ≠ JobTypeANALYZE) (h3 : ty ≠ JobTypeBUILD)
    (hd : d.projectId = none) :
    (addJob ty d initState).fst = 0 ∧
    getJobStatus 0 (addJob ty d initState).snd =
      some { id := 0, type := ty, status := JobStatus.pending,
             createdAt := 0, startedAt := none, completedAt := none,
             error := none, retryCount := 0, result := none } ∧
    runTrace cfg (Label.lsubmit ty d ::
        List.replicate (cfg.retryAttempts + 2) Label.lloop) initState =
      some (c3EndState ty d cfg.retryAttempts) ∧
    getJobStatus 0 (c3EndState ty d cfg.retryAttempts) =
      some { id := 0, type := ty, status := JobStatus.failed,
             createdAt := 0, startedAt := some 0, completedAt := some 0,
             error := some ("Unknown job type: " ++ ty),
             retryCount := cfg.retryAttempts, result := none } := by
  refine ⟨rfl, rfl, ?_, rfl⟩
  show runTrace cfg (Label.lsubmit ty d ::
      List.replicate (cfg.retryAttempts + 2) Label.lloop) initState = _
  simp only [runTrace, c3_submit]
  exact c3_run_loops cfg ty d hC h1 h2 h3 hd cfg.retryAttempts 0
    (Nat.zero_add _)

theorem claim_c3_unknown_kind_witness :
    (addJob "bogus" ({} : JobData) initState).fst = 0 ∧
    getJobStatus 0 (addJob "bogus" ({} : JobData) initState).snd =
      some { id := 0, type := "bogus", status := JobStatus.pending,
             createdAt := 0, startedAt := none, completedAt := none,
             error := none, retryCount := 0, result := none } ∧
    runTrace defaultConfig (Label.lsubmit "bogus" ({} : JobData) ::
        List.replicate (defaultConfig.retryAttempts + 2) Label.lloop)
        initState =
      some (c3EndState "bogus" ({} : JobData)
        defaultConfig.retryAttempts) ∧
    getJobStatus 0 (c3EndState "bogus" ({} : JobData)
        defaultConfig.retryAttempts) =
      some { id := 0, type := "bogus", status := JobStatus.failed,
             createdAt := 0, startedAt := some 0, completedAt := some 0,
             error := some ("Unknown job type: " ++ "bogus"),
             retryCount := defaultConfig.retryAttempts, result := none } :=
  claim_c3_unknown_kind defaultConfig "bogus" {} (by decide) (by decide)
    (by decide) (by decide) rfl

/-- A CLONE job whose payload names a project: start log succeeds, the work
function succeeds, the COMPLETED fields are assigned (and an ANALYZE job was
chained). -/
def c4CompletedTrace : List Label :=
  [Label.lsubmit JobTypeCLONE { projectId := some "proj-1" },
   Label.lloop, Label.lloop, Label.lstartLogOk 0,
   Label.lworkOk 0 "workspace/proj-1", Label.lcomplete 0 "workspace/proj-1"]

/-- The state after the job completed. -/
def c4CompletedState : EngineState :=
  (runTrace defaultConfig c4CompletedTrace initState).getD initState

/-- The same run, after the completion-time `BuildLog.createLog` rejects. -/
def c4RevertedState : EngineState :=
  (step defaultConfig (Label.ldoneLogThrow 0 "log database down")
    c4CompletedState).getD initState

/-- **C4** (code bug): an exception from the log sink is NOT discarded.  A
CLONE job whose work function succeeded is COMPLETED with its result stored;
when the completion-time `BuildLog.createLog` then throws, `processJob`'s
catch treats it as a job failure: the COMPLETED job is reverted to PENDING
(`retryCount` 1, the log error recorded as the job's `error`) and re-enqueued
for a second execution, instead of staying COMPLETED. -/
theorem claim_c4_log_sink_bug :
    runTrace defaultConfig c4CompletedTrace initState =
      some c4CompletedState ∧
    (getJobStatus 0 c4CompletedState).map JobView.status =
      some JobStatus.completed ∧
    (getJobStatus 0 c4CompletedState).map JobView.result =
      some (some "workspace/proj-1") ∧
    step defaultConfig (Label.ldoneLogThrow 0 "log database down")
      c4CompletedState = some c4RevertedState ∧
    (getJobStatus 0 c4RevertedState).map JobView.status =
      some JobStatus.pending ∧
    (getJobStatus 0 c4RevertedState).map JobView.retryCount = some 1 ∧
    (getJobStatus 0 c4RevertedState).map JobView.error =
      some (some "log database down") ∧
    c4RevertedState.queue = [1, 0] := by
  exact ⟨rfl, rfl, rfl, rfl, rfl, rfl, rfl, rfl⟩

/-- An ANALYZE job with a project payload, run to COMPLETED. -/
def c5CompletedTrace : List Label :=
  [Label.lsubmit JobTypeANALYZE { projectId := some "proj-5" },
   Label.lloop, Label.lloop, Label.lstartLogOk 0,
   Label.lworkOk 0 "analysis-report", Label.lcomplete 0 "analysis-report"]

/-- The state after that job completed. -/
def c5CompletedState : EngineState :=
  (runTrace defaultConfig c5CompletedTrace initState).getD initState

/-- The state after the completion log rejects. -/
def c5RevertedState : EngineState :=
  (step defaultConfig (Label.ldoneLogThrow 0 "sink unavailable")
    c5CompletedState).getD initState

/-- **C5** (code bug): COMPLETED is not terminal in the code.  An ANALYZE
job reaches COMPLETED; one engine step later (the completion-time log call
rejecting) the same job is PENDING again and re-enqueued — a transition out
of a terminal state.  (The skip of non-PENDING dequeued ids, the other half
of the claim, does hold and is shown as the last two conjuncts: a loop
iteration over a stale queue entry for the completed job only pops the
entry.) -/
theorem claim_c5_terminal_state_bug :
    runTrace defaultConfig c5CompletedTrace initState =
      some c5CompletedState ∧
    (getJobStatus 0 c5CompletedState).map JobView.status =
      some JobStatus.completed ∧
    step defaultConfig (Label.ldoneLogThrow 0 "sink unavailable")
      c5CompletedState = some c5RevertedState ∧
    (getJobStatus 0 c5RevertedState).map JobView.status =
      some JobStatus.pending ∧
    c5RevertedState.queue = [0] ∧
    step defaultConfig Label.lloop
      { c5CompletedState with queue := [0], isProcessing := true } =
      some { c5CompletedState with queue := [], isProcessing := true } ∧
    (getJobStatus 0 c5CompletedState).map JobView.status =
      some JobStatus.completed := by
  exact ⟨rfl, rfl, rfl, rfl, rfl, by decide, rfl⟩

/-- The stalled run for C6: one failing CLONE job, dispatched; the queue
drained so the loop exited; the failure then re-enqueued the job. -/
def c6StallTrace : List Label :=
  [Label.lsubmit JobTypeCLONE {}, Label.lloop, Label.lloop,
   Label.lworkErr 0 "network unreachable"]

/-- The stalled state. -/
def c6StallState : EngineState :=
  (runTrace defaultConfig c6StallTrace initState).getD initState

/-- **C6, counterexample**: right after the retry path's re-enqueue the
system IS in a stable state with a PENDING job in a non-empty queue and no
active loop: `isProcessing` is false, no continuation is in flight, and the
scheduler-loop step is not even enabled — the retry re-enqueue (source line
318) did not restart the loop. -/
theorem claim_c6_loop_restart_cex :
    runTrace defaultConfig c6StallTrace initState = some c6StallState ∧
    c6StallState.queue = [0] ∧
    (getJobStatus 0 c6StallState).map JobView.status =
      some JobStatus.pending ∧
    c6StallState.isProcessing = false ∧
    c6StallState.tasks = [] ∧
    step defaultConfig Label.lloop c6StallState = none := by
  exact ⟨rfl, rfl, rfl, rfl, rfl, rfl⟩

theorem lookupJob_filter (p : Nat × Job → Bool) {k : Nat}
    {jobs : List (Nat × Job)} {jb : Job}
    (h : lookupJob k jobs = some jb) (hp : p (k, jb) = true) :
    lookupJob k (jobs.filter p) = some jb := by
  induction jobs with
  | nil => exact absurd h (by simp [lookupJob_nil])
  | cons q t ih =>
      obtain ⟨k', v⟩ := q
      rw [lookupJob_cons] at h
      by_cases hk : k' = k
      · subst hk
        rw [if_pos rfl] at h
        injection h with h2
        subst h2
        rw [List.filter_cons, if_pos hp, lookupJob_cons, if_pos rfl]
      · rw [if_neg hk] at h
        rw [List.filter_cons]
        by_cases hq : p (k', v) = true
        · rw [if_pos hq, lookupJob_cons, if_neg hk]
          exact ih h
        · rw [if_neg hq]
          exact ih h

theorem isProcessing_step_workErr {cfg : Config} {id : Nat} {e : String}
    {s s' : EngineState}
    (h : step cfg (Label.lworkErr id e) s = some s') :
    s'.isProcessing = s.isProcessing := by
  simp only [step] at h
  repeat' split at h
  all_goals first
    | exact Option.noConfusion h
    | (injection h with h2; subst h2; rfl)

theorem isProcessing_step_startLogThrow {cfg : Config} {id : Nat}
    {e : String} {s s' : EngineState}
    (h : step cfg (Label.lstartLogThrow id e) s = some s') :
    s'.isProcessing = s.isProcessing := by
  simp only [step] at h
  repeat' split at h
  all_goals first
    | exact Option.noConfusion h
    | (injection h with h2; subst h2; rfl)

theorem isProcessing_step_doneLogThrow {cfg : Config} {id : Nat}
    {e : String} {s s' : EngineState}
    (h : step cfg (Label.ldoneLogThrow id e) s = some s') :
    s'.isProcessing = s.isProcessing := by
  simp only [step] at h
  repeat' split at h
  all_goals first
    | exact Option.noConfusion h
    | (injection h with h2; subst h2; rfl)

theorem quiescent_frame {cfg : Config} {l : Label} {s s' : EngineState}
    (hip : s.isProcessing = false) (hts : s.tasks = [])
    (hns : ∀ ty d, l ≠ Label.lsubmit ty d)
    (h : step cfg l s = some s') :
    s'.isProcessing = false ∧ s'.queue = s.queue ∧
      ∀ k jb, lookupJob k s.jobs = some jb →
        jb.status = JobStatus.pending → lookupJob k s'.jobs = some jb := by
  have hnil : ∀ (id : Nat) (ph : Phase), (id, ph) ∉ s.tasks := by
    rw [hts]
    intro id ph
    exact List.not_mem_nil _
  cases l with
  | lsubmit ty d => exact absurd rfl (hns ty d)
  | lloop =>
      rw [step_loop_idle hip] at h
      exact Option.noConfusion h
  | lstartLogOk id =>
      rw [step_startLogOk_none (hnil id _)] at h
      exact Option.noConfusion h
  | lstartLogThrow id e =>
      rw [step_startLogThrow_none (hnil id _)] at h
      exact Option.noConfusion h
  | lworkOk id r =>
      rw [step_workOk_none (hnil id _)] at h
      exact Option.noConfusion h
  | lworkErr id e =>
      rw [step_workErr_none (hnil id _)] at h
      exact Option.noConfusion h
  | lcomplete id r =>
      rw [step_complete_none (hnil id _)] at h
      exact Option.noConfusion h
  | ldoneLogOk id =>
      rw [step_doneLogOk_none (hnil id _)] at h
      exact Option.noConfusion h
  | ldoneLogThrow id e =>
      rw [step_doneLogThrow_none (hnil id _)] at h
      exact Option.noConfusion h
  | lcatchTail id =>
      rw [step_catchTail_none (hnil id _)] at h
      exact Option.noConfusion h
  | ltick =>
      rw [step_tick] at h
      injection h with h2
      subst h2
      exact ⟨hip, rfl, fun k jb hk _ => hk⟩
  | lreap =>
      rw [step_reap] at h
      injection h with h2
      subst h2
      refine ⟨hip, rfl, fun k jb hk hp => ?_⟩
      show lookupJob k
        (clearCompletedJobs DEFAULT_RETENTION_MS s.now s.jobs) = some jb
      unfold clearCompletedJobs
      apply lookupJob_filter _ hk
      simp [hp]

/-- **C6 (amended)**: only `addJob` restarts the scheduler loop.  In full:
(1) every submission leaves the loop flag set (`addJob`'s
`if (!isProcessing) processJobs()` guard — the flag is a single process-wide
boolean, so at most one loop instance can be active); (2)-(4) the failure
steps that run the retry path's re-enqueue (a rejected work function, a
throwing start log, a throwing completion log) never change `isProcessing`
— the re-enqueue of source line 318 does not restart an exited loop; hence
(5) once the loop has exited and no continuation is in flight, every
non-submission step leaves the system stalled: the loop stays inactive, the
queue is unchanged, and every PENDING job stays exactly as it is.  A PENDING
job in a non-empty queue with no active loop therefore persists until the
next `addJob` call, contradicting the original claim's last sentence (see
the counterexample). -/
theorem claim_c6_loop_restart :
    (∀ (ty : String) (d : JobData) (s : EngineState),
       (addJob ty d s).snd.isProcessing = true) ∧
    (∀ (cfg : Config) (id : Nat) (e : String) (s s' : EngineState),
       step cfg (Label.lworkErr id e) s = some s' →
         s'.isProcessing = s.isProcessing) ∧
    (∀ (cfg : Config) (id : Nat) (e : String) (s s' : EngineState),
       step cfg (Label.lstartLogThrow id e) s = some s' →
         s'.isProcessing = s.isProcessing) ∧
    (∀ (cfg : Config) (id : Nat) (e : String) (s s' : EngineState),
       step cfg (Label.ldoneLogThrow id e) s = some s' →
         s'.isProcessing = s.isProcessing) ∧
    (∀ (cfg : Config) (l : Label) (s s' : EngineState),
       s.isProcessing = false → s.tasks = [] →
       (∀ ty d, l ≠ Label.lsubmit ty d) → step cfg l s = some s' →
       s'.isProcessing = false ∧ s'.queue = s.queue ∧
         ∀ k jb, lookupJob k s.jobs = some jb →
           jb.status = JobStatus.pending → lookupJob k s'.jobs = some jb) :=
  ⟨fun _ _ _ => rfl,
   fun _ _ _ _ _ h => isProcessing_step_workErr h,
   fun _ _ _ _ _ h => isProcessing_step_startLogThrow h,
   fun _ _ _ _ _ h => isProcessing_step_doneLogThrow h,
   fun _ _ _ _ hip hts hns h => quiescent_frame hip hts hns h⟩

theorem lookupJob_eq_of_mem_nodup {j : Nat} {jb : Job} {jobs : List (Nat × Job)}
    (hnd : (jobKeys jobs).Nodup) (hm : (j, jb) ∈ jobs) :
    lookupJob j jobs = some jb := by
  induction jobs with
  | nil => exact absurd hm (List.not_mem_nil _)
  | cons p t ih =>
      obtain ⟨k, v⟩ := p
      have hnd2 : ¬ k ∈ jobKeys t ∧ (jobKeys t).Nodup := by
        simpa [jobKeys] using hnd
      rw [lookupJob_cons]
      rcases List.mem_cons.mp hm with h | h
      · rw [Prod.mk.injEq] at h
        obtain ⟨h1, h2⟩ := h
        subst h1
        subst h2
        rw [if_pos rfl]
      · have hk : k ≠ j := by
          intro hkj
          subst hkj
          exact hnd2.1 (by simpa [jobKeys] using List.mem_map_of_mem Prod.fst h)
        rw [if_neg hk]
        exact ih hnd2.2 h

/-- How one step of the engine may change the three timestamps of one job
record: `createdAt` never changes; `startedAt` changes only by being
assigned the step's current time during dispatch of a PENDING job (the
unconditional `job.startedAt = new Date()` of source line 256); and
`completedAt` changes only by being assigned the step's current time at a
transition into COMPLETED or FAILED. -/
def timestampEvolution (now : Nat) (jb jb' : Job) : Prop :=
  jb'.createdAt = jb.createdAt ∧
  (jb'.startedAt ≠ jb.startedAt →
     jb'.startedAt = some now ∧ jb.status = JobStatus.pending) ∧
  (jb'.completedAt ≠ jb.completedAt →
     jb'.completedAt = some now ∧
       (jb'.status = JobStatus.completed ∨ jb'.status = JobStatus.failed))

theorem timestampEvolution_refl {now : Nat} {jb jb' : Job} (h : jb' = jb) :
    timestampEvolution now jb jb' := by
  subst h
  exact ⟨rfl, fun hne => absurd rfl hne, fun hne => absurd rfl hne⟩

theorem timestampEvolution_dispatch (now : Nat) {jb : Job}
    (hp : jb.status = JobStatus.pending) :
    timestampEvolution now jb
      { jb with status := JobStatus.running, startedAt := some now } := by
  simp [timestampEvolution, hp]

theorem timestampEvolution_dispatch_sync (R now : Nat) (e : String) {jb : Job}
    (hp : jb.status = JobStatus.pending) :
    timestampEvolution now jb
      (handleFailure R now e
        { jb with status := JobStatus.running, startedAt := some now }).fst := by
  by_cases h : jb.retryCount < R <;>
    simp [timestampEvolution, handleFailure, h, hp]

theorem timestampEvolution_handleFailure (R now : Nat) (e : String) (jb : Job) :
    timestampEvolution now jb (handleFailure R now e jb).fst := by
  by_cases h : jb.retryCount < R <;>
    simp [timestampEvolution, handleFailure, h]

theorem timestampEvolution_complete (now : Nat) (r : String) (jb : Job) :
    timestampEvolution now jb
      { jb with status := JobStatus.completed, completedAt := some now,
                result := some r } := by
  simp [timestampEvolution]

theorem timestampEvolution_applyFailure {cfg : Config} {s : EngineState}
    {id j : Nat} {job jb jb' : Job} {e : String} {ts : List (Nat × Phase)}
    (hb : lookupJob j s.jobs = some jb)
    (hl : lookupJob id s.jobs = some job)
    (ha : lookupJob j (applyFailure cfg id job e ts s).jobs = some jb') :
    timestampEvolution s.now jb jb' := by
  have ha2 : lookupJob j (updateJob id
      (fun _ => (handleFailure cfg.retryAttempts s.now e job).fst) s.jobs)
        = some jb' := ha
  by_cases hj : id = j
  · subst hj
    rw [hb] at hl
    have hjb : jb = job := Option.some.inj hl
    subst hjb
    rw [lookupJob_updateJob_self, hb] at ha2
    have ha3 : (handleFailure cfg.retryAttempts s.now e jb).fst = jb' := by
      simpa using ha2
    rw [← ha3]
    exact timestampEvolution_handleFailure cfg.retryAttempts s.now e jb
  · rw [lookupJob_updateJob_ne hj, hb] at ha2
    exact timestampEvolution_refl (Option.some.inj ha2).symm

/-- **C7 (amended)**: how any single step of the engine may change the
timestamps of any job record (`hb`/`ha` look the job up before and after the
step): `createdAt` is never changed after creation; `startedAt` changes only
by being assigned the current time while dispatching the job out of PENDING;
`completedAt` changes only by being assigned the current time at a
transition into a terminal state (COMPLETED or FAILED).  The original
claim's "set exactly once" is false for `startedAt`: the dispatch prefix of
`processJob` (source line 256) assigns `job.startedAt = new Date()`
unconditionally on every dispatch, so a job that failed, was reverted to
PENDING and is dispatched again has its `startedAt` overwritten — see the
counterexample; `completedAt` can likewise be reassigned after the
completion-log crash reverts a COMPLETED job to PENDING. -/
theorem claim_c7_timestamps {cfg : Config} {l : Label} {s s' : EngineState}
    {j : Nat} {jb jb' : Job}
    (hnd : (jobKeys s.jobs).Nodup)
    (hstep : step cfg l s = some s')
    (hb : lookupJob j s.jobs = some jb)
    (ha : lookupJob j s'.jobs = some jb') :
    timestampEvolution s.now jb jb' := by
  cases l with
  | lsubmit ty d =>
      rw [step_submit] at hstep
      injection hstep with h2
      subst h2
      have ha2 : lookupJob j (s.jobs ++ [(s.nextId, newJob ty d s)])
          = some jb' := ha
      rw [lookupJob_append_left hb] at ha2
      exact timestampEvolution_refl (Option.some.inj ha2).symm
  | lloop =>
      cases hip : s.isProcessing with
      | false =>
          rw [step_loop_idle hip] at hstep
          exact Option.noConfusion hstep
      | true =>
          cases hq : s.queue with
          | nil =>
              rw [step_loop_exit hip hq] at hstep
              injection hstep with h2
              subst h2
              have ha2 : lookupJob j s.jobs = some jb' := ha
              rw [hb] at ha2
              exact timestampEvolution_refl (Option.some.inj ha2).symm
          | cons jobId rest =>
              by_cases hc : cfg.maxConcurrent ≤ runningCount s.jobs
              · rw [step_loop_wait hip hq hc] at hstep
                injection hstep with h2
                subst h2
                have ha2 : lookupJob j s.jobs = some jb' := ha
                rw [hb] at ha2
                exact timestampEvolution_refl (Option.some.inj ha2).symm
              · cases hl : lookupJob jobId s.jobs with
                | none =>
                    rw [step_loop_stale hip hq hc hl] at hstep
                    injection hstep with h2
                    subst h2
                    have ha2 : lookupJob j s.jobs = some jb' := ha
                    rw [hb] at ha2
                    exact timestampEvolution_refl (Option.some.inj ha2).symm
                | some job =>
                    by_cases hst : job.status = JobStatus.pending
                    · cases hw : (hasAsyncWork job.type ||
                          job.data.projectId.isSome) with
                      | true =>
                          rw [step_loop_dispatch hip hq hc hl hst hw] at hstep
                          injection hstep with h2
                          subst h2
                          by_cases hj : jobId = j
                          · subst hj
                            rw [hb] at hl
                            have hjb : jb = job := Option.some.inj hl
                            subst hjb
                            have ha2 : lookupJob jobId (updateJob jobId
                                (fun _ => { jb with
                                  status := JobStatus.running,
                                  startedAt := some s.now }) s.jobs)
                                = some jb' := ha
                            rw [lookupJob_updateJob_self, hb] at ha2
                            have ha3 : { jb with
                                status := JobStatus.running,
                                startedAt := some s.now } = jb' := by
                              simpa using ha2
                            rw [← ha3]
                            exact timestampEvolution_dispatch s.now hst
                          · have ha2 : lookupJob j (updateJob jobId
                                (fun _ => { job with
                                  status := JobStatus.running,
                                  startedAt := some s.now }) s.jobs)
                                = some jb' := ha
                            rw [lookupJob_updateJob_ne hj, hb] at ha2
                            exact timestampEvolution_refl
                              (Option.some.inj ha2).symm
                      | false =>
                          rw [step_loop_dispatch_sync hip hq hc hl hst hw]
                            at hstep
                          injection hstep with h2
                          subst h2
                          by_cases hj : jobId = j
                          · subst hj
                            rw [hb] at hl
                            have hjb : jb = job := Option.some.inj hl
                            subst hjb
                            have ha2 : lookupJob jobId (updateJob jobId
                                (fun _ => (handleFailure cfg.retryAttempts
                                  s.now (syncThrowMessage jb.type)
                                  { jb with
                                    status := JobStatus.running,
                                    startedAt := some s.now }).fst) s.jobs)
                                = some jb' := ha
                            rw [lookupJob_updateJob_self, hb] at ha2
                            have ha3 : (handleFailure cfg.retryAttempts s.now
                                (syncThrowMessage jb.type)
                                { jb with
                                  status := JobStatus.running,
                                  startedAt := some s.now }).fst = jb' := by
                              simpa using ha2
                            rw [← ha3]
                            exact timestampEvolution_dispatch_sync
                              cfg.retryAttempts s.now
                              (syncThrowMessage jb.type) hst
                          · have ha2 : lookupJob j (updateJob jobId
                                (fun _ => (handleFailure cfg.retryAttempts
                                  s.now (syncThrowMessage job.type)
                                  { job with
                                    status := JobStatus.running,
                                    startedAt := some s.now }).fst) s.jobs)
                                = some jb' := ha
                            rw [lookupJob_updateJob_ne hj, hb] at ha2
                            exact timestampEvolution_refl
                              (Option.some.inj ha2).symm
                    · rw [step_loop_skip hip hq hc hl hst] at hstep
                      injection hstep with h2
                      subst h2
                      have ha2 : lookupJob j s.jobs = some jb' := ha
                      rw [hb] at ha2
                      exact timestampEvolution_refl (Option.some.inj ha2).symm
  | lstartLogOk id =>
      by_cases hmem : (id, Phase.phStartLog) ∈ s.tasks
      · cases hl : lookupJob id s.jobs with
        | none =>
            rw [step_startLogOk_orphan hmem hl] at hstep
            injection hstep with h2
            subst h2
            have ha2 : lookupJob j s.jobs = some jb' := ha
            rw [hb] at ha2
            exact timestampEvolution_refl (Option.some.inj ha2).symm
        | some job =>
            cases hasy : hasAsyncWork job.type with
            | true =>
                rw [step_startLogOk_async hmem hl hasy] at hstep
                injection hstep with h2
                subst h2
                have ha2 : lookupJob j s.jobs = some jb' := ha
                rw [hb] at ha2
                exact timestampEvolution_refl (Option.some.inj ha2).symm
            | false =>
                rw [step_startLogOk_sync hmem hl hasy] at hstep
                injection hstep with h2
                subst h2
                exact timestampEvolution_applyFailure hb hl ha
      · rw [step_startLogOk_none hmem] at hstep
        exact Option.noConfusion hstep
  | lstartLogThrow id e =>
      by_cases hmem : (id, Phase.phStartLog) ∈ s.tasks
      · cases hl : lookupJob id s.jobs with
        | none =>
            rw [step_startLogThrow_orphan hmem hl] at hstep
            injection hstep with h2
            subst h2
            have ha2 : lookupJob j s.jobs = some jb' := ha
            rw [hb] at ha2
            exact timestampEvolution_refl (Option.some.inj ha2).symm
        | some job =>
            rw [step_startLogThrow_some hmem hl] at hstep
            injection hstep with h2
            subst h2
            exact timestampEvolution_applyFailure hb hl ha
      · rw [step_startLogThrow_none hmem] at hstep
        exact Option.noConfusion hstep
  | lworkOk id r =>
      by_cases hmem : (id, Phase.phWork) ∈ s.tasks
      · cases hl : lookupJob id s.jobs with
        | none =>
            rw [step_workOk_orphan hmem hl] at hstep
            injection hstep with h2
            subst h2
            have ha2 : lookupJob j s.jobs = some jb' := ha
            rw [hb] at ha2
            exact timestampEvolution_refl (Option.some.inj ha2).symm
        | some job =>
            by_cases ht : job.type = JobTypeCLONE
            · rw [step_workOk_clone hmem hl ht] at hstep
              injection hstep with h2
              subst h2
              have ha2 : lookupJob j (s.jobs ++ [(s.nextId,
                  newJob JobTypeANALYZE
                    { projectId := job.data.projectId, projectPath := some r }
                    { s with tasks := removeTask id Phase.phWork s.tasks })])
                  = some jb' := ha
              rw [lookupJob_append_left hb] at ha2
              exact timestampEvolution_refl (Option.some.inj ha2).symm
            · by_cases ht2 : job.type = JobTypeANALYZE
              · rw [step_workOk_analyze hmem hl ht2] at hstep
                injection hstep with h2
                subst h2
                have ha2 : lookupJob j s.jobs = some jb' := ha
                rw [hb] at ha2
                exact timestampEvolution_refl (Option.some.inj ha2).symm
              · rw [step_workOk_other hmem hl ht ht2] at hstep
                exact Option.noConfusion hstep
      · rw [step_workOk_none hmem] at hstep
        exact Option.noConfusion hstep
  | lworkErr id e =>
      by_cases hmem : (id, Phase.phWork) ∈ s.tasks
      · cases hl : lookupJob id s.jobs with
        | none =>
            rw [step_workErr_orphan hmem hl] at hstep
            injection hstep with h2
            subst h2
            have ha2 : lookupJob j s.jobs = some jb' := ha
            rw [hb] at ha2
            exact timestampEvolution_refl (Option.some.inj ha2).symm
        | some job =>
            rw [step_workErr_some hmem hl] at hstep
            injection hstep with h2
            subst h2
            exact timestampEvolution_applyFailure hb hl ha
      · rw [step_workErr_none hmem] at hstep
        exact Option.noConfusion hstep
  | lcomplete id r =>
      by_cases hmem : (id, Phase.phCompleting r) ∈ s.tasks
      · cases hl : lookupJob id s.jobs with
        | none =>
            rw [step_complete_orphan hmem hl] at hstep
            injection hstep with h2
            subst h2
            have ha2 : lookupJob j s.jobs = some jb' := ha
            rw [hb] at ha2
            exact timestampEvolution_refl (Option.some.inj ha2).symm
        | some job =>
            rw [step_complete_some hmem hl] at hstep
            injection hstep with h2
            subst h2
            by_cases hj : id = j
            · subst hj
              rw [hb] at hl
              have hjb : jb = job := Option.some.inj hl
              subst hjb
              have ha2 : lookupJob id (updateJob id
                  (fun _ => { jb with
                    status := JobStatus.completed,
                    completedAt := some s.now,
                    result := some r }) s.jobs) = some jb' := ha
              rw [lookupJob_updateJob_self, hb] at ha2
              have ha3 : { jb with
                  status := JobStatus.completed,
                  completedAt := some s.now,
                  result := some r } = jb' := by
                simpa using ha2
              rw [← ha3]
              exact timestampEvolution_complete s.now r jb
            · have ha2 : lookupJob j (updateJob id
                  (fun _ => { job with
                    status := JobStatus.completed,
                    completedAt := some s.now,
                    result := some r }) s.jobs) = some jb' := ha
              rw [lookupJob_updateJob_ne hj, hb] at ha2
              exact timestampEvolution_refl (Option.some.inj ha2).symm
      · rw [step_complete_none hmem] at hstep
        exact Option.noConfusion hstep
  | ldoneLogOk id =>
      by_cases hmem : (id, Phase.phDoneLog) ∈ s.tasks
      · rw [step_doneLogOk_some hmem] at hstep
        injection hstep with h2
        subst h2
        have ha2 : lookupJob j s.jobs = some jb' := ha
        rw [hb] at ha2
        exact timestampEvolution_refl (Option.some.inj ha2).symm
      · rw [step_doneLogOk_none hmem] at hstep
        exact Option.noConfusion hstep
  | ldoneLogThrow id e =>
      by_cases hmem : (id, Phase.phDoneLog) ∈ s.tasks
      · cases hl : lookupJob id s.jobs with
        | none =>
            rw [step_doneLogThrow_orphan hmem hl] at hstep
            injection hstep with h2
            subst h2
            have ha2 : lookupJob j s.jobs = some jb' := ha
            rw [hb] at ha2
            exact timestampEvolution_refl (Option.some.inj ha2).symm
        | some job =>
            rw [step_doneLogThrow_some hmem hl] at hstep
            injection hstep with h2
            subst h2
            exact timestampEvolution_applyFailure hb hl ha
      · rw [step_doneLogThrow_none hmem] at hstep
        exact Option.noConfusion hstep
  | lcatchTail id =>
      by_cases hmem : (id, Phase.phCatchTail) ∈ s.tasks
      · rw [step_catchTail_some hmem] at hstep
        injection hstep with h2
        subst h2
        have ha2 : lookupJob j s.jobs = some jb' := ha
        rw [hb] at ha2
        exact timestampEvolution_refl (Option.some.inj ha2).symm
      · rw [step_catchTail_none hmem] at hstep
        exact Option.noConfusion hstep
  | ltick =>
      rw [step_tick] at hstep
      injection hstep with h2
      subst h2
      have ha2 : lookupJob j s.jobs = some jb' := ha
      rw [hb] at ha2
      exact timestampEvolution_refl (Option.some.inj ha2).symm
  | lreap =>
      rw [step_reap] at hstep
      injection hstep with h2
      subst h2
      have ha2 : lookupJob j
          (clearCompletedJobs DEFAULT_RETENTION_MS s.now s.jobs)
          = some jb' := ha
      have hmem : (j, jb') ∈ s.jobs :=
        List.mem_of_mem_filter (mem_of_lookupJob_some ha2)
      have hlk : lookupJob j s.jobs = some jb' :=
        lookupJob_eq_of_mem_nodup hnd hmem
      rw [hb] at hlk
      exact timestampEvolution_refl (Option.some.inj hlk).symm

/-- A CLONE job is submitted, dispatched (assigning `startedAt`), the loop
exits, and the work function rejects once: the retry path reverts the job to
PENDING with the re-enqueued id still queued. -/
def c7TraceA : List Label :=
  [Label.lsubmit JobTypeCLONE {}, Label.lloop, Label.lloop,
   Label.lworkErr 0 "transient network failure"]

/-- After the failed first attempt, time passes and a second submission
restarts the loop, which re-dispatches the reverted job. -/
def c7TraceB : List Label :=
  c7TraceA ++ [Label.ltick, Label.lsubmit JobTypeCLONE {}, Label.lloop]

def c7StateA : EngineState :=
  (runTrace defaultConfig c7TraceA initState).getD initState

def c7StateB : EngineState :=
  (runTrace defaultConfig c7TraceB initState).getD initState

/-- **C7 (counterexample)**: `startedAt` is NOT set exactly once.  Job 0 is
dispatched at time 0 (`startedAt = 0`), its work function rejects, the retry
path reverts it to PENDING; when a later submission restarts the loop at
time 1, the dispatch prefix assigns `job.startedAt = new Date()` again
(source line 256), so the very same job's `startedAt` now reads 1 — it was
assigned a second time, contradicting the claim's final sentence. -/
theorem claim_c7_timestamps_cex :
    runTrace defaultConfig c7TraceA initState = some c7StateA ∧
    runTrace defaultConfig c7TraceB initState = some c7StateB ∧
    (getJobStatus 0 c7StateA).map JobView.status = some JobStatus.pending ∧
    (getJobStatus 0 c7StateA).map JobView.retryCount = some 1 ∧
    (getJobStatus 0 c7StateA).map JobView.startedAt = some (some 0) ∧
    (getJobStatus 0 c7StateB).map JobView.startedAt = some (some 1) ∧
    (getJobStatus 0 c7StateB).map JobView.startedAt ≠
      (getJobStatus 0 c7StateA).map JobView.startedAt :=
  ⟨rfl, rfl, rfl, rfl, rfl, rfl, by decide⟩

def c7WitnessS : EngineState :=
  (runTrace defaultConfig [Label.lsubmit JobTypeCLONE {}] initState).getD
    initState

def c7WitnessS' : EngineState :=
  (step defaultConfig Label.lloop c7WitnessS).getD initState

def c7WitnessJb : Job :=
  (lookupJob 0 c7WitnessS.jobs).getD (newJob JobTypeCLONE {} initState)

def c7WitnessJb' : Job :=
  (lookupJob 0 c7WitnessS'.jobs).getD (newJob JobTypeCLONE {} initState)

theorem claim_c7_timestamps_witness :
    timestampEvolution c7WitnessS.now c7WitnessJb c7WitnessJb' :=
  @claim_c7_timestamps defaultConfig Label.lloop c7WitnessS c7WitnessS' 0
    c7WitnessJb c7WitnessJb' (by decide) rfl rfl rfl

theorem lookupJob_filter_none_of_nodup {p : Nat × Job → Bool} {j : Nat}
    {jobs : List (Nat × Job)} {jb : Job}
    (hnd : (jobKeys jobs).Nodup)
    (h : lookupJob j jobs = some jb) (hp : p (j, jb) = false) :
    lookupJob j (jobs.filter p) = none := by
  cases hf : lookupJob j (jobs.filter p) with
  | none => rfl
  | some jb' =>
      have hm : (j, jb') ∈ jobs.filter p := mem_of_lookupJob_some hf
      have hm2 : (j, jb') ∈ jobs := List.mem_of_mem_filter hm
      have heq : lookupJob j jobs = some jb' :=
        lookupJob_eq_of_mem_nodup hnd hm2
      rw [h] at heq
      have hjb : jb = jb' := Option.some.inj heq
      subst hjb
      have hpt : p (j, jb) = true := List.of_mem_filter hm
      rw [hp] at hpt
      exact Bool.noConfusion hpt

/-- **C8**: the reaper.  The cleanup interval constant is 10 minutes and the
default retention window is 3600000 ms (1 hour); on a sweep (the
`setInterval` firing `clearCompletedJobs()`), a COMPLETED or FAILED job
whose `completedAt` lies more than the retention window in the past is
removed from the job table; a terminal job whose `completedAt` is within the
window is retained unchanged; and a PENDING or RUNNING job is never removed,
regardless of its age. -/
theorem claim_c8_reaper {cfg : Config} {s s' : EngineState} {j : Nat}
    {jb : Job}
    (hnd : (jobKeys s.jobs).Nodup)
    (hstep : step cfg Label.lreap s = some s')
    (hlk : lookupJob j s.jobs = some jb) :
    CLEANUP_INTERVAL_MS = 600000 ∧
    DEFAULT_RETENTION_MS = 3600000 ∧
    ((jb.status = JobStatus.completed ∨ jb.status = JobStatus.failed) →
       ∀ t, jb.completedAt = some t →
         (s.now - t > DEFAULT_RETENTION_MS → lookupJob j s'.jobs = none) ∧
         (s.now - t ≤ DEFAULT_RETENTION_MS →
            lookupJob j s'.jobs = some jb)) ∧
    ((jb.status = JobStatus.pending ∨ jb.status = JobStatus.running) →
       lookupJob j s'.jobs = some jb) := by
  rw [step_reap] at hstep
  injection hstep with h2
  subst h2
  refine ⟨rfl, rfl, ?_, ?_⟩
  · intro hterm t hct
    constructor
    · intro hgt
      show lookupJob j
        (clearCompletedJobs DEFAULT_RETENTION_MS s.now s.jobs) = none
      unfold clearCompletedJobs
      apply lookupJob_filter_none_of_nodup hnd hlk
      rcases hterm with h | h <;> simp [h, hct, hgt]
    · intro hle
      show lookupJob j
        (clearCompletedJobs DEFAULT_RETENTION_MS s.now s.jobs) = some jb
      unfold clearCompletedJobs
      apply lookupJob_filter _ hlk
      have hn : ¬ s.now - t > DEFAULT_RETENTION_MS := not_lt.mpr hle
      rcases hterm with h | h <;> simp [h, hct, hn]
  · intro hnt
    show lookupJob j
      (clearCompletedJobs DEFAULT_RETENTION_MS s.now s.jobs) = some jb
    unfold clearCompletedJobs
    apply lookupJob_filter _ hlk
    rcases hnt with h | h <;> simp [h]

def c8WitnessJob : Job :=
  { id := 0, type := JobTypeCLONE, data := {}, status := JobStatus.completed,
    createdAt := 0, startedAt := some 0, completedAt := some 0,
    error := none, retryCount := 0, result := some "workspace/p" }

def c8WitnessS : EngineState :=
  { jobs := [(0, c8WitnessJob),
             (1, { c8WitnessJob with id := 1, status := JobStatus.pending })],
    queue := [], isProcessing := false, nextId := 2, now := 3600002,
    tasks := [] }

def c8WitnessS' : EngineState :=
  (step defaultConfig Label.lreap c8WitnessS).getD initState

theorem claim_c8_reaper_witness :
    CLEANUP_INTERVAL_MS = 600000 ∧
    DEFAULT_RETENTION_MS = 3600000 ∧
    ((c8WitnessJob.status = JobStatus.completed ∨
        c8WitnessJob.status = JobStatus.failed) →
       ∀ t, c8WitnessJob.completedAt = some t →
         (c8WitnessS.now - t > DEFAULT_RETENTION_MS →
            lookupJob 0 c8WitnessS'.jobs = none) ∧
         (c8WitnessS.now - t ≤ DEFAULT_RETENTION_MS →
            lookupJob 0 c8WitnessS'.jobs = some c8WitnessJob)) ∧
    ((c8WitnessJob.status = JobStatus.pending ∨
        c8WitnessJob.status = JobStatus.running) →
       lookupJob 0 c8WitnessS'.jobs = some c8WitnessJob) :=
  @claim_c8_reaper defaultConfig c8WitnessS c8WitnessS' 0 c8WitnessJob
    (by decide) rfl rfl

/-- The labels that resume a suspended continuation of job `k` (every
transition of an in-flight `processJob(k)` after its dispatch). -/
def resumeLabelFor (k : Nat) : Label → Prop
  | Label.lstartLogOk id => id = k
  | Label.lstartLogThrow id _ => id = k
  | Label.lworkOk id _ => id = k
  | Label.lworkErr id _ => id = k
  | Label.lcomplete id _ => id = k
  | Label.ldoneLogOk id => id = k
  | Label.ldoneLogThrow id _ => id = k
  | Label.lcatchTail id => id = k
  | _ => False

theorem lookupJob_preserved_of_resume {cfg : Config} {l : Label} {k i : Nat}
    {s s' : EngineState} {jb : Job}
    (hne : k ≠ i) (hres : resumeLabelFor k l)
    (hstep : step cfg l s = some s')
    (hlk : lookupJob i s.jobs = some jb) :
    lookupJob i s'.jobs = some jb := by
  cases l with
  | lsubmit ty d => exact hres.elim
  | lloop => exact hres.elim
  | ltick => exact hres.elim
  | lreap => exact hres.elim
  | lstartLogOk id =>
      have hk : id = k := hres
      subst hk
      by_cases hmem : (id, Phase.phStartLog) ∈ s.tasks
      · cases hl : lookupJob id s.jobs with
        | none =>
            rw [step_startLogOk_orphan hmem hl] at hstep
            injection hstep with h2
            subst h2
            exact hlk
        | some job =>
            cases hasy : hasAsyncWork job.type with
            | true =>
                rw [step_startLogOk_async hmem hl hasy] at hstep
                injection hstep with h2
                subst h2
                exact hlk
            | false =>
                rw [step_startLogOk_sync hmem hl hasy] at hstep
                injection hstep with h2
                subst h2
                exact (lookupJob_updateJob_ne hne
                  (fun _ => (handleFailure cfg.retryAttempts s.now
                    (syncThrowMessage job.type) job).fst) s.jobs).trans hlk
      · rw [step_startLogOk_none hmem] at hstep
        exact Option.noConfusion hstep
  | lstartLogThrow id e =>
      have hk : id = k := hres
      subst hk
      by_cases hmem : (id, Phase.phStartLog) ∈ s.tasks
      · cases hl : lookupJob id s.jobs with
        | none =>
            rw [step_startLogThrow_orphan hmem hl] at hstep
            injection hstep with h2
            subst h2
            exact hlk
        | some job =>
            rw [step_startLogThrow_some hmem hl] at hstep
            injection hstep with h2
            subst h2
            exact (lookupJob_updateJob_ne hne
              (fun _ => (handleFailure cfg.retryAttempts s.now e job).fst)
              s.jobs).trans hlk
      · rw [step_startLogThrow_none hmem] at hstep
        exact Option.noConfusion hstep
  | lworkOk id r =>
      have hk : id = k := hres
      subst hk
      by_cases hmem : (id, Phase.phWork) ∈ s.tasks
      · cases hl : lookupJob id s.jobs with
        | none =>
            rw [step_workOk_orphan hmem hl] at hstep
            injection hstep with h2
            subst h2
            exact hlk
        | some job =>
            by_cases ht : job.type = JobTypeCLONE
            · rw [step_workOk_clone hmem hl ht] at hstep
              injection hstep with h2
              subst h2
              exact lookupJob_append_left hlk _
            · by_cases ht2 : job.type = JobTypeANALYZE
              · rw [step_workOk_analyze hmem hl ht2] at hstep
                injection hstep with h2
                subst h2
                exact hlk
              · rw [step_workOk_other hmem hl ht ht2] at hstep
                exact Option.noConfusion hstep
      · rw [step_workOk_none hmem] at hstep
        exact Option.noConfusion hstep
  | lworkErr id e =>
      have hk : id = k := hres
      subst hk
      by_cases hmem : (id, Phase.phWork) ∈ s.tasks
      · cases hl : lookupJob id s.jobs with
        | none =>
            rw [step_workErr_orphan hmem hl] at hstep
            injection hstep with h2
            subst h2
            exact hlk
        | some job =>
            rw [step_workErr_some hmem hl] at hstep
            injection hstep with h2
            subst h2
            exact (lookupJob_updateJob_ne hne
              (fun _ => (handleFailure cfg.retryAttempts s.now e job).fst)
              s.jobs).trans hlk
      · rw [step_workErr_none hmem] at hstep
        exact Option.noConfusion hstep
  | lcomplete id r =>
      have hk : id = k := hres
      subst hk
      by_cases hmem : (id, Phase.phCompleting r) ∈ s.tasks
      · cases hl : lookupJob id s.jobs with
        | none =>
            rw [step_complete_orphan hmem hl] at hstep
            injection hstep with h2
            subst h2
            exact hlk
        | some job =>
            rw [step_complete_some hmem hl] at hstep
            injection hstep with h2
            subst h2
            exact (lookupJob_updateJob_ne hne
              (fun _ => { job with status := JobStatus.completed,
                                   completedAt := some s.now,
                                   result := some r }) s.jobs).trans hlk
      · rw [step_complete_none hmem] at hstep
        exact Option.noConfusion hstep
  | ldoneLogOk id =>
      have hk : id = k := hres
      subst hk
      by_cases hmem : (id, Phase.phDoneLog) ∈ s.tasks
      · rw [step_doneLogOk_some hmem] at hstep
        injection hstep with h2
        subst h2
        exact hlk
      · rw [step_doneLogOk_none hmem] at hstep
        exact Option.noConfusion hstep
  | ldoneLogThrow id e =>
      have hk : id = k := hres
      subst hk
      by_cases hmem : (id, Phase.phDoneLog) ∈ s.tasks
      · cases hl : lookupJob id s.jobs with
        | none =>
            rw [step_doneLogThrow_orphan hmem hl] at hstep
            injection hstep with h2
            subst h2
            exact hlk
        | some job =>
            rw [step_doneLogThrow_some hmem hl] at hstep
            injection hstep with h2
            subst h2
            exact (lookupJob_updateJob_ne hne
              (fun _ => (handleFailure cfg.retryAttempts s.now e job).fst)
              s.jobs).trans hlk
      · rw [step_doneLogThrow_none hmem] at hstep
        exact Option.noConfusion hstep
  | lcatchTail id =>
      have hk : id = k := hres
      subst hk
      by_cases hmem : (id, Phase.phCatchTail) ∈ s.tasks
      · rw [step_catchTail_some hmem] at hstep
        injection hstep with h2
        subst h2
        exact hlk
      · rw [step_catchTail_none hmem] at hstep
        exact Option.noConfusion hstep

/-- **C9**: chaining.  When a CLONE job's work function succeeds
(`executeCloneJob` resolves and internally calls `addJob('analyze', ...)`,
source lines 389-393), exactly one brand-new ANALYZE job is created: it is
stored under the fresh id `s.nextId` — distinct from the CLONE job's id —
with state PENDING and `retryCount` 0, and exactly that one id is appended
to the queue; the upstream CLONE job's record is untouched by this step.
Moreover (last conjunct) no resumption step of any in-flight job `k` — the
chained job's own dispatch continuations, including its terminal failure —
ever changes the stored record of a different job `i`, so the downstream
job's lifecycle never retroactively affects the upstream COMPLETED job. -/
theorem claim_c9_chaining {cfg : Config} {s s' : EngineState} {id : Nat}
    {r : String} {job : Job}
    (hwf : KeysWF s)
    (hstep : step cfg (Label.lworkOk id r) s = some s')
    (hlk : lookupJob id s.jobs = some job)
    (ht : job.type = JobTypeCLONE) :
    s.nextId ≠ id ∧
    lookupJob s.nextId s'.jobs =
      some (newJob JobTypeANALYZE
        { projectId := job.data.projectId, projectPath := some r } s) ∧
    (newJob JobTypeANALYZE
      { projectId := job.data.projectId, projectPath := some r } s).type
        = JobTypeANALYZE ∧
    (newJob JobTypeANALYZE
      { projectId := job.data.projectId, projectPath := some r } s).status
        = JobStatus.pending ∧
    (newJob JobTypeANALYZE
      { projectId := job.data.projectId, projectPath := some r } s).retryCount
        = 0 ∧
    (newJob JobTypeANALYZE
      { projectId := job.data.projectId, projectPath := some r } s).id
        = s.nextId ∧
    s'.queue = s.queue ++ [s.nextId] ∧
    lookupJob id s'.jobs = some job ∧
    (∀ (cfg' : Config) (l : Label) (k i : Nat) (s1 s1' : EngineState)
       (jb : Job),
       k ≠ i → resumeLabelFor k l → step cfg' l s1 = some s1' →
       lookupJob i s1.jobs = some jb → lookupJob i s1'.jobs = some jb) := by
  by_cases hmem : (id, Phase.phWork) ∈ s.tasks
  · rw [step_workOk_clone hmem hlk ht] at hstep
    injection hstep with h2
    subst h2
    have hid : id < s.nextId := hwf.1 id (mem_keys_of_lookupJob_some hlk)
    have hne : s.nextId ≠ id := Nat.ne_of_gt hid
    have hfresh : ¬ s.nextId ∈ jobKeys s.jobs := by
      intro hmem2
      exact absurd (hwf.1 _ hmem2) (lt_irrefl _)
    have hnone : lookupJob s.nextId s.jobs = none :=
      lookupJob_eq_none_of_not_mem_keys hfresh
    refine ⟨hne, ?_, rfl, rfl, rfl, rfl, rfl, ?_, ?_⟩
    · show lookupJob s.nextId (s.jobs ++
        [(s.nextId, newJob JobTypeANALYZE
          { projectId := job.data.projectId, projectPath := some r } s)])
        = some (newJob JobTypeANALYZE
          { projectId := job.data.projectId, projectPath := some r } s)
      rw [lookupJob_append_right hnone, lookupJob_cons, if_pos rfl]
    · exact lookupJob_append_left hlk _
    · intro cfg' l k i s1 s1' jb hki hres hst hlk1
      exact lookupJob_preserved_of_resume hki hres hst hlk1
  · rw [step_workOk_none hmem] at hstep
    exact Option.noConfusion hstep

def c9WitnessS : EngineState :=
  (runTrace defaultConfig [Label.lsubmit JobTypeCLONE {}, Label.lloop]
    initState).getD initState

def c9WitnessS' : EngineState :=
  (step defaultConfig (Label.lworkOk 0 "workspace/p") c9WitnessS).getD
    initState

def c9WitnessJob : Job :=
  (lookupJob 0 c9WitnessS.jobs).getD (newJob JobTypeCLONE {} initState)

theorem claim_c9_chaining_witness :
    c9WitnessS.nextId ≠ 0 ∧
    lookupJob c9WitnessS.nextId c9WitnessS'.jobs =
      some (newJob JobTypeANALYZE
        { projectId := c9WitnessJob.data.projectId,
          projectPath := some "workspace/p" } c9WitnessS) ∧
    (newJob JobTypeANALYZE
      { projectId := c9WitnessJob.data.projectId,
        projectPath := some "workspace/p" } c9WitnessS).type
        = JobTypeANALYZE ∧
    (newJob JobTypeANALYZE
      { projectId := c9WitnessJob.data.projectId,
        projectPath := some "workspace/p" } c9WitnessS).status
        = JobStatus.pending ∧
    (newJob JobTypeANALYZE
      { projectId := c9WitnessJob.data.projectId,
        projectPath := some "workspace/p" } c9WitnessS).retryCount
        = 0 ∧
    (newJob JobTypeANALYZE
      { projectId := c9WitnessJob.data.projectId,
        projectPath := some "workspace/p" } c9WitnessS).id
        = c9WitnessS.nextId ∧
    c9WitnessS'.queue = c9WitnessS.queue ++ [c9WitnessS.nextId] ∧
    lookupJob 0 c9WitnessS'.jobs = some c9WitnessJob ∧
    (∀ (cfg' : Config) (l : Label) (k i : Nat) (s1 s1' : EngineState)
       (jb : Job),
       k ≠ i → resumeLabelFor k l → step cfg' l s1 = some s1' →
       lookupJob i s1.jobs = some jb → lookupJob i s1'.jobs = some jb) :=
  @claim_c9_chaining defaultConfig c9WitnessS c9WitnessS' 0 "workspace/p"
    c9WitnessJob ⟨by decide, by decide⟩ rfl rfl rfl

theorem handleFailure_error_ne_none (R now : Nat) (e : String) (jb : Job) :
    (handleFailure R now e jb).fst.error ≠ none := by
  by_cases h : jb.retryCount < R <;> simp [handleFailure, h]

theorem error_kept_applyFailure {cfg : Config} {s : EngineState}
    {id j : Nat} {job jb jb' : Job} {e : String} {ts : List (Nat × Phase)}
    (hb : lookupJob j s.jobs = some jb)
    (hl : lookupJob id s.jobs = some job)
    (ha : lookupJob j (applyFailure cfg id job e ts s).jobs = some jb') :
    jb.error ≠ none → jb'.error ≠ none := by
  have ha2 : lookupJob j (updateJob id
      (fun _ => (handleFailure cfg.retryAttempts s.now e job).fst) s.jobs)
        = some jb' := ha
  by_cases hj : id = j
  · subst hj
    rw [hb] at hl
    have hjb : jb = job := Option.some.inj hl
    subst hjb
    rw [lookupJob_updateJob_self, hb] at ha2
    have ha3 : (handleFailure cfg.retryAttempts s.now e jb).fst = jb' := by
      simpa using ha2
    rw [← ha3]
    exact fun _ => handleFailure_error_ne_none cfg.retryAttempts s.now e jb
  · rw [lookupJob_updateJob_ne hj, hb] at ha2
    have hjb : jb = jb' := Option.some.inj ha2
    subst hjb
    exact fun h => h

/-- The scenario of the claim: a CLONE job whose work function rejects once
with "boom", is reverted to PENDING, and — after a second submission
restarts the stalled loop — is re-dispatched, succeeds and completes. -/
def c10Trace : List Label :=
  [Label.lsubmit JobTypeCLONE {}, Label.lloop, Label.lloop,
   Label.lworkErr 0 "boom", Label.lsubmit JobTypeCLONE {}, Label.lloop,
   Label.lworkOk 0 "workspace/x", Label.lcomplete 0 "workspace/x"]

def c10State : EngineState :=
  (runTrace defaultConfig c10Trace initState).getD initState

/-- **C10** (implicit): the `error` field, once set by a failed attempt, is
never reset to null.  First conjunct: across any single step of the engine,
a job record whose `error` is non-null still has a non-null `error`
afterwards — the success path of `processJob` assigns `status`,
`completedAt` and `result` but never touches `error` (source lines
289-295), and the catch path only overwrites it with the newest message
(line 310).  Remaining conjuncts: in the concrete fail-retry-succeed run
(`c10Trace`), the job ends COMPLETED with `result` set while `error` still
reads "boom" from the failed first attempt, and `getJobStatus` reports that
non-null `error` alongside status COMPLETED, exactly as claimed. -/
theorem claim_c10_error_retention :
    (∀ (cfg : Config) (l : Label) (s s' : EngineState) (j : Nat)
       (jb jb' : Job),
       (jobKeys s.jobs).Nodup → step cfg l s = some s' →
       lookupJob j s.jobs = some jb → lookupJob j s'.jobs = some jb' →
       jb.error ≠ none → jb'.error ≠ none) ∧
    runTrace defaultConfig c10Trace initState = some c10State ∧
    (getJobStatus 0 c10State).map JobView.status = some JobStatus.completed ∧
    (getJobStatus 0 c10State).map JobView.error = some (some "boom") ∧
    (getJobStatus 0 c10State).map JobView.result =
      some (some "workspace/x") ∧
    (getJobStatus 0 c10State).map JobView.retryCount = some 1 := by
  refine ⟨?_, rfl, rfl, rfl, rfl, rfl⟩
  intro cfg l s s' j jb jb' hnd hstep hb ha
  cases l with
  | lsubmit ty d =>
      rw [step_submit] at hstep
      injection hstep with h2
      subst h2
      have ha2 : lookupJob j (s.jobs ++ [(s.nextId, newJob ty d s)])
          = some jb' := ha
      rw [lookupJob_append_left hb] at ha2
      have hjb : jb = jb' := Option.some.inj ha2
      subst hjb
      exact fun h => h
  | lloop =>
      cases hip : s.isProcessing with
      | false =>
          rw [step_loop_idle hip] at hstep
          exact Option.noConfusion hstep
      | true =>
          cases hq : s.queue with
          | nil =>
              rw [step_loop_exit hip hq] at hstep
              injection hstep with h2
              subst h2
              have ha2 : lookupJob j s.jobs = some jb' := ha
              rw [hb] at ha2
              have hjb : jb = jb' := Option.some.inj ha2
              subst hjb
              exact fun h => h
          | cons jobId rest =>
              by_cases hc : cfg.maxConcurrent ≤ runningCount s.jobs
              · rw [step_loop_wait hip hq hc] at hstep
                injection hstep with h2
                subst h2
                have ha2 : lookupJob j s.jobs = some jb' := ha
                rw [hb] at ha2
                have hjb : jb = jb' := Option.some.inj ha2
                subst hjb
                exact fun h => h
              · cases hl : lookupJob jobId s.jobs with
                | none =>
                    rw [step_loop_stale hip hq hc hl] at hstep
                    injection hstep with h2
                    subst h2
                    have ha2 : lookupJob j s.jobs = some jb' := ha
                    rw [hb] at ha2
                    have hjb : jb = jb' := Option.some.inj ha2
                    subst hjb
                    exact fun h => h
                | some job =>
                    by_cases hst : job.status = JobStatus.pending
                    · cases hw : (hasAsyncWork job.type ||
                          job.data.projectId.isSome) with
                      | true =>
                          rw [step_loop_dispatch hip hq hc hl hst hw] at hstep
                          injection hstep with h2
                          subst h2
                          by_cases hj : jobId = j
                          · subst hj
                            rw [hb] at hl
                            have hjb : jb = job := Option.some.inj hl
                            subst hjb
                            have ha2 : lookupJob jobId (updateJob jobId
                                (fun _ => { jb with
                                  status := JobStatus.running,
                                  startedAt := some s.now }) s.jobs)
                                = some jb' := ha
                            rw [lookupJob_updateJob_self, hb] at ha2
                            have ha3 : { jb with
                                status := JobStatus.running,
                                startedAt := some s.now } = jb' := by
                              simpa using ha2
                            rw [← ha3]
                            exact fun h => h
                          · have ha2 : lookupJob j (updateJob jobId
                                (fun _ => { job with
                                  status := JobStatus.running,
                                  startedAt := some s.now }) s.jobs)
                                = some jb' := ha
                            rw [lookupJob_updateJob_ne hj, hb] at ha2
                            have hjb : jb = jb' := Option.some.inj ha2
                            subst hjb
                            exact fun h => h
                      | false =>
                          rw [step_loop_dispatch_sync hip hq hc hl hst hw]
                            at hstep
                          injection hstep with h2
                          subst h2
                          by_cases hj : jobId = j
                          · subst hj
                            rw [hb] at hl
                            have hjb : jb = job := Option.some.inj hl
                            subst hjb
                            have ha2 : lookupJob jobId (updateJob jobId
                                (fun _ => (handleFailure cfg.retryAttempts
                                  s.now (syncThrowMessage jb.type)
                                  { jb with
                                    status := JobStatus.running,
                                    startedAt := some s.now }).fst) s.jobs)
                                = some jb' := ha
                            rw [lookupJob_updateJob_self, hb] at ha2
                            have ha3 : (handleFailure cfg.retryAttempts s.now
                                (syncThrowMessage jb.type)
                                { jb with
                                  status := JobStatus.running,
                                  startedAt := some s.now }).fst = jb' := by
                              simpa using ha2
                            rw [← ha3]
                            exact fun _ =>
                              handleFailure_error_ne_none cfg.retryAttempts
                                s.now (syncThrowMessage jb.type) _
                          · have ha2 : lookupJob j (updateJob jobId
                                (fun _ => (handleFailure cfg.retryAttempts
                                  s.now (syncThrowMessage job.type)
                                  { job with
                                    status := JobStatus.running,
                                    startedAt := some s.now }).fst) s.jobs)
                                = some jb' := ha
                            rw [lookupJob_updateJob_ne hj, hb] at ha2
                            have hjb : jb = jb' := Option.some.inj ha2
                            subst hjb
                            exact fun h => h
                    · rw [step_loop_skip hip hq hc hl hst] at hstep
                      injection hstep with h2
                      subst h2
                      have ha2 : lookupJob j s.jobs = some jb' := ha
                      rw [hb] at ha2
                      have hjb : jb = jb' := Option.some.inj ha2
                      subst hjb
                      exact fun h => h
  | lstartLogOk id =>
      by_cases hmem : (id, Phase.phStartLog) ∈ s.tasks
      · cases hl : lookupJob id s.jobs with
        | none =>
            rw [step_startLogOk_orphan hmem hl] at hstep
            injection hstep with h2
            subst h2
            have ha2 : lookupJob j s.jobs = some jb' := ha
            rw [hb] at ha2
            have hjb : jb = jb' := Option.some.inj ha2
            subst hjb
            exact fun h => h
        | some job =>
            cases hasy : hasAsyncWork job.type with
            | true =>
                rw [step_startLogOk_async hmem hl hasy] at hstep
                injection hstep with h2
                subst h2
                have ha2 : lookupJob j s.jobs = some jb' := ha
                rw [hb] at ha2
                have hjb : jb = jb' := Option.some.inj ha2
                subst hjb
                exact fun h => h
            | false =>
                rw [step_startLogOk_sync hmem hl hasy] at hstep
                injection hstep with h2
                subst h2
                exact error_kept_applyFailure hb hl ha
      · rw [step_startLogOk_none hmem] at hstep
        exact Option.noConfusion hstep
  | lstartLogThrow id e =>
      by_cases hmem : (id, Phase.phStartLog) ∈ s.tasks
      · cases hl : lookupJob id s.jobs with
        | none =>
            rw [step_startLogThrow_orphan hmem hl] at hstep
            injection hstep with h2
            subst h2
            have ha2 : lookupJob j s.jobs = some jb' := ha
            rw [hb] at ha2
            have hjb : jb = jb' := Option.some.inj ha2
            subst hjb
            exact fun h => h
        | some job =>
            rw [step_startLogThrow_some hmem hl] at hstep
            injection hstep with h2
            subst h2
            exact error_kept_applyFailure hb hl ha
      · rw [step_startLogThrow_none hmem] at hstep
        exact Option.noConfusion hstep
  | lworkOk id r =>
      by_cases hmem : (id, Phase.phWork) ∈ s.tasks
      · cases hl : lookupJob id s.jobs with
        | none =>
            rw [step_workOk_orphan hmem hl] at hstep
            injection hstep with h2
            subst h2
            have ha2 : lookupJob j s.jobs = some jb' := ha
            rw [hb] at ha2
            have hjb : jb = jb' := Option.some.inj ha2
            subst hjb
            exact fun h => h
        | some job =>
            by_cases ht : job.type = JobTypeCLONE
            · rw [step_workOk_clone hmem hl ht] at hstep
              injection hstep with h2
              subst h2
              have ha2 : lookupJob j (s.jobs ++ [(s.nextId,
                  newJob JobTypeANALYZE
                    { projectId := job.data.projectId, projectPath := some r }
                    { s with tasks := removeTask id Phase.phWork s.tasks })])
                  = some jb' := ha
              rw [lookupJob_append_left hb] at ha2
              have hjb : jb = jb' := Option.some.inj ha2
              subst hjb
              exact fun h => h
            · by_cases ht2 : job.type = JobTypeANALYZE
              · rw [step_workOk_analyze hmem hl ht2] at hstep
                injection hstep with h2
                subst h2
                have ha2 : lookupJob j s.jobs = some jb' := ha
                rw [hb] at ha2
                have hjb : jb = jb' := Option.some.inj ha2
                subst hjb
                exact fun h => h
              · rw [step_workOk_other hmem hl ht ht2] at hstep
                exact Option.noConfusion hstep
      · rw [step_workOk_none hmem] at hstep
        exact Option.noConfusion hstep
  | lworkErr id e =>
      by_cases hmem : (id, Phase.phWork) ∈ s.tasks
      · cases hl : lookupJob id s.jobs with
        | none =>
            rw [step_workErr_orphan hmem hl] at hstep
            injection hstep with h2
            subst h2
            have ha2 : lookupJob j s.jobs = some jb' := ha
            rw [hb] at ha2
            have hjb : jb = jb' := Option.some.inj ha2
            subst hjb
            exact fun h => h
        | some job =>
            rw [step_workErr_some hmem hl] at hstep
            injection hstep with h2
            subst h2
            exact error_kept_applyFailure hb hl ha
      · rw [step_workErr_none hmem] at hstep
        exact Option.noConfusion hstep
  | lcomplete id r =>
      by_cases hmem : (id, Phase.phCompleting r) ∈ s.tasks
      · cases hl : lookupJob id s.jobs with
        | none =>
            rw [step_complete_orphan hmem hl] at hstep
            injection hstep with h2
            subst h2
            have ha2 : lookupJob j s.jobs = some jb' := ha
            rw [hb] at ha2
            have hjb : jb = jb' := Option.some.inj ha2
            subst hjb
            exact fun h => h
        | some job =>
            rw [step_complete_some hmem hl] at hstep
            injection hstep with h2
            subst h2
            by_cases hj : id = j
            · subst hj
              rw [hb] at hl
              have hjb : jb = job := Option.some.inj hl
              subst hjb
              have ha2 : lookupJob id (updateJob id
                  (fun _ => { jb with
                    status := JobStatus.completed,
                    completedAt := some s.now,
                    result := some r }) s.jobs) = some jb' := ha
              rw [lookupJob_updateJob_self, hb] at ha2
              have ha3 : { jb with
                  status := JobStatus.completed,
                  completedAt := some s.now,
                  result := some r } = jb' := by
                simpa using ha2
              rw [← ha3]
              exact fun h => h
            · have ha2 : lookupJob j (updateJob id
                  (fun _ => { job with
                    status := JobStatus.completed,
                    completedAt := some s.now,
                    result := some r }) s.jobs) = some jb' := ha
              rw [lookupJob_updateJob_ne hj, hb] at ha2
              have hjb : jb = jb' := Option.some.inj ha2
              subst hjb
              exact fun h => h
      · rw [step_complete_none hmem] at hstep
        exact Option.noConfusion hstep
  | ldoneLogOk id =>
      by_cases hmem : (id, Phase.phDoneLog) ∈ s.tasks
      · rw [step_doneLogOk_some hmem] at hstep
        injection hstep with h2
        subst h2
        have ha2 : lookupJob j s.jobs = some jb' := ha
        rw [hb] at ha2
        have hjb : jb = jb' := Option.some.inj ha2
        subst hjb
        exact fun h => h
      · rw [step_doneLogOk_none hmem] at hstep
        exact Option.noConfusion hstep
  | ldoneLogThrow id e =>
      by_cases hmem : (id, Phase.phDoneLog) ∈ s.tasks
      · cases hl : lookupJob id s.jobs with
        | none =>
            rw [step_doneLogThrow_orphan hmem hl] at hstep
            injection hstep with h2
            subst h2
            have ha2 : lookupJob j s.jobs = some jb' := ha
            rw [hb] at ha2
            have hjb : jb = jb' := Option.some.inj ha2
            subst hjb
            exact fun h => h
        | some job =>
            rw [step_doneLogThrow_some hmem hl] at hstep
            injection hstep with h2
            subst h2
            exact error_kept_applyFailure hb hl ha
      · rw [step_doneLogThrow_none hmem] at hstep
        exact Option.noConfusion hstep
  | lcatchTail id =>
      by_cases hmem : (id, Phase.phCatchTail) ∈ s.tasks
      · rw [step_catchTail_some hmem] at hstep
        injection hstep with h2
        subst h2
        have ha2 : lookupJob j s.jobs = some jb' := ha
        rw [hb] at ha2
        have hjb : jb = jb' := Option.some.inj ha2
        subst hjb
        exact fun h => h
      · rw [step_catchTail_none hmem] at hstep
        exact Option.noConfusion hstep
  | ltick =>
      rw [step_tick] at hstep
      injection hstep with h2
      subst h2
      have ha2 : lookupJob j s.jobs = some jb' := ha
      rw [hb] at ha2
      have hjb : jb = jb' := Option.some.inj ha2
      subst hjb
      exact fun h => h
  | lreap =>
      rw [step_reap] at hstep
      injection hstep with h2
      subst h2
      have ha2 : lookupJob j
          (clearCompletedJobs DEFAULT_RETENTION_MS s.now s.jobs)
          = some jb' := ha
      have hmem : (j, jb') ∈ s.jobs :=
        List.mem_of_mem_filter (mem_of_lookupJob_some ha2)
      have hlk : lookupJob j s.jobs = some jb' :=
        lookupJob_eq_of_mem_nodup hnd hmem
      rw [hb] at hlk
      have hjb : jb = jb' := Option.some.inj hlk
      subst hjb
      exact fun h => h
